import Mathlib

/-!
# A formal model of the opslag mDNS core

This file is a shallow embedding, in Lean 4, of the opslag crate: its DNS
wire codec (labels with RFC-1035 compression pointers, records, queries,
answers, request/response messages), its positional `Writer` with a sticky
overflow flag and a label-compression memo, its `ServiceInfo` assembly, and
its Sans-I/O `Server` state machine.

Conventions of the embedding:

* Rust byte slices are `List Nat` (each element a byte value).  Rust `&str`
  values are likewise modelled by their UTF-8 byte sequence as a `List Nat`
  (byte 46 is the dot separator; in valid UTF-8, byte 46 can only occur as
  the one-byte character U+002E, so byte-level splitting on 46 agrees with
  Rust `str::split('.')`).
* Machine integers are `Nat`, with `% 2 ^ 64` (resp. `% 2 ^ 16`) applied at
  the places the Rust code wraps or casts.
* Fallible parsing returns the inductive `PR`: `ok rest value`, a recovered
  parse error `err kind`, or `panic` which marks a spot where the Rust code
  would panic (an unchecked slice index, a failed `unwrap`, an `assert!`).
  Operations that can only fail by panicking return `Option`, `none`
  marking a panic.
* Loops whose Rust form consumes a slice are written as structural
  recursion on an explicit `fuel` argument initialised to the length of the
  consumed slice (each Rust loop iteration consumes at least one byte, so
  this fuel is always sufficient; the fuel-exhausted branches are
  unreachable and are proved so where a claim needs it).  This keeps every
  definition computable by kernel reduction.
-/

set_option maxRecDepth 4096

namespace Opslag

/-- Error kinds, mirroring the `nom::error::ErrorKind` values the crate
produces (`Eof` for exhausted input from `be_u8`/`be_u16`/`take`). -/
inductive ErrK where
  | eof
  | lengthValue
  | tooLarge
  | alphaNumeric
  | tag
  | fail
  deriving DecidableEq, Repr

/-- Result of a parser over `List Nat`: success with the remaining input, a
recoverable parse error, or a Rust panic. -/
inductive PR (α : Type) where
  | ok (rest : List Nat) (v : α)
  | err (k : ErrK)
  | panic
  deriving DecidableEq, Repr

/-- `nom::number::complete::be_u8`. -/
def beU8 : List Nat → PR Nat
  | [] => .err .eof
  | b :: rest => .ok rest b

/-- `nom::number::complete::be_u16`. -/
def beU16 : List Nat → PR Nat
  | a :: b :: rest => .ok rest (a * 256 + b)
  | _ => .err .eof

/-- `nom::number::complete::be_u32`. -/
def beU32 : List Nat → PR Nat
  | a :: b :: c :: d :: rest => .ok rest (((a * 256 + b) * 256 + c) * 256 + d)
  | _ => .err .eof

/-- `nom::bytes::complete::take(n)`: `n` bytes or an error. -/
def takeBytes (n : Nat) (input : List Nat) : PR (List Nat) :=
  if n ≤ input.length then .ok (input.drop n) (input.take n) else .err .eof

/-- UTF-8 continuation byte test (`0x80..=0xBF`). -/
def isCont (b : Nat) : Bool := 0x80 ≤ b && b ≤ 0xBF

/-- Validity of a byte sequence as UTF-8, the check done by Rust
`str::from_utf8` (RFC 3629: surrogates and overlong encodings excluded). -/
def isValidUTF8 : List Nat → Bool
  | [] => true
  | b :: rest =>
    if b ≤ 0x7F then isValidUTF8 rest
    else if 0xC2 ≤ b && b ≤ 0xDF then
      match rest with
      | c1 :: r => isCont c1 && isValidUTF8 r
      | [] => false
    else if b = 0xE0 then
      match rest with
      | c1 :: c2 :: r => (0xA0 ≤ c1 && c1 ≤ 0xBF) && isCont c2 && isValidUTF8 r
      | _ => false
    else if (0xE1 ≤ b && b ≤ 0xEC) || b = 0xEE || b = 0xEF then
      match rest with
      | c1 :: c2 :: r => isCont c1 && isCont c2 && isValidUTF8 r
      | _ => false
    else if b = 0xED then
      match rest with
      | c1 :: c2 :: r => (0x80 ≤ c1 && c1 ≤ 0x9F) && isCont c2 && isValidUTF8 r
      | _ => false
    else if b = 0xF0 then
      match rest with
      | c1 :: c2 :: c3 :: r =>
        (0x90 ≤ c1 && c1 ≤ 0xBF) && isCont c2 && isCont c3 && isValidUTF8 r
      | _ => false
    else if 0xF1 ≤ b && b ≤ 0xF3 then
      match rest with
      | c1 :: c2 :: c3 :: r => isCont c1 && isCont c2 && isCont c3 && isValidUTF8 r
      | _ => false
    else if b = 0xF4 then
      match rest with
      | c1 :: c2 :: c3 :: r =>
        (0x80 ≤ c1 && c1 ≤ 0x8F) && isCont c2 && isCont c3 && isValidUTF8 r
      | _ => false
    else false

/-! ## Dotted strings

`dotByte` is `46`, the UTF-8 byte of the character the crate splits
label strings on. -/

/-- The byte value of the dot separator. -/
def dotByte : Nat := 46

/-- One step of Rust `str::split('.')`: the prefix before the first dot. -/
def dotPart (s : List Nat) : List Nat := s.takeWhile (fun b => b ≠ dotByte)

/-- Modelled from the behaviour of Rust `str::split('.')` (the reference
side of the label-iteration claim): splitting an empty string yields one
empty piece, and every dot separates two pieces.  `fuel` is initialised to
the length of the string and only decreases, so the `fuel = 0` fallback is
never reached with a non-trivial argument. -/
def splitDotGo : Nat → List Nat → List (List Nat)
  | 0, s => [s]
  | fuel + 1, s =>
    let part := dotPart s
    if part.length = s.length then [part]
    else part :: splitDotGo fuel (s.drop (part.length + 1))

/-- Rust `s.split('.')` as a list of byte strings. -/
def splitDot (s : List Nat) : List (List Nat) := splitDotGo s.length s

/-- `LabelStrIter::next`, iterated to the end: yields the dot-separated
pieces of `s`, except that the empty string yields no piece at all (the
iterator returns `None` immediately when `data.is_empty()`). -/
def labelStrGo : Nat → List Nat → List (List Nat)
  | 0, _ => []
  | fuel + 1, s =>
    if s.isEmpty then []
    else
      let part := dotPart s
      if part.length = s.length then [part]
      else part :: labelStrGo fuel (s.drop (part.length + 1))

/-- All segments yielded by a `LabelStr`'s iterator. -/
def labelStrSegs (s : List Nat) : List (List Nat) := labelStrGo s.length s

/-! ## Labels -/

/-- `LabelRun`: a contiguous slice of the original packet holding
length-prefixed segments, plus the whole packet as pointer context. -/
structure LabelRun where
  run : List Nat
  context : List Nat
  deriving DecidableEq, Repr

/-- `LabelPart`: a parsed run or a borrowed string segment. -/
inductive LabelPart where
  | run (r : LabelRun)
  | str (s : List Nat)
  deriving DecidableEq, Repr

/-- A DNS name: an ordered sequence of label parts (bounded by `LLEN` in
the source; the bound is enforced at each push). -/
structure Label where
  items : List LabelPart
  deriving DecidableEq, Repr

/-- `heapless::Vec::push`: fails (returning `none`) when the vector already
holds `cap` elements. -/
def vecPush (cap : Nat) (v : List α) (x : α) : Option (List α) :=
  if v.length < cap then some (v ++ [x]) else none

/-- `heapless::Vec::insert`: fails when full (used only at index 0). -/
def vecInsert (cap : Nat) (v : List α) (i : Nat) (x : α) : Option (List α) :=
  if v.length < cap then some (v.insertIdx i x) else none

/-- `LabelRunIter::next`, iterated to the end.  Each step either stops
(fewer than two bytes left), follows a compression pointer into the
context, or yields the dot-split pieces of the next length-prefixed
segment (`split_once('.')` applied repeatedly equals `split('.')`).
Pointer chasing here has no recursion counter in the source, so the
iterator diverges on adversarial cyclic runs; runs produced by `parse`
never contain pointers, and the fuel passed by `labelPartSegs` is
sufficient for every pointer-free run.  The out-of-bounds branches mark
panics (`&context[offset..]`, `&data[1..1 + len]`); they too are
unreachable for parse-produced runs. -/
def runSegsGo (context : List Nat) : Nat → List Nat → List (List Nat)
  | 0, _ => []
  | fuel + 1, data =>
    if data.length < 2 then []
    else
      match data with
      | [] => []
      | len :: tail =>
        if (len &&& 0xc0) != 0 then
          let offset := (len &&& 0x3f) * 256 + tail.headD 0
          if offset ≤ context.length then runSegsGo context fuel (context.drop offset)
          else []
        else
          if 1 + len ≤ data.length then
            splitDot (tail.take len) ++ runSegsGo context fuel (tail.drop len)
          else []

/-- Segment sequence of one `LabelPart` (its iterator, run to the end). -/
def labelPartSegs : LabelPart → List (List Nat)
  | .run r => runSegsGo r.context (r.run.length + r.context.length + 1) r.run
  | .str s => labelStrSegs s

/-- `Label::iter`, run to the end: the flattened segments of all parts. -/
def labelSegs (l : Label) : List (List Nat) := l.items.flatMap labelPartSegs

/-- `PartialEq for Label`: structural comparison segment by segment. -/
def labelEq (a b : Label) : Bool := labelSegs a == labelSegs b

/-- `Label::is_empty`: the iterator yields no segment. -/
def labelIsEmpty (l : Label) : Bool := (labelSegs l).isEmpty

/-- `Label::push_back`: append a string part; reports whether the bounded
vector accepted it. -/
def Label.pushBack (LLEN : Nat) (l : Label) (s : List Nat) : Label × Bool :=
  match vecPush LLEN l.items (.str s) with
  | some items2 => (⟨items2⟩, true)
  | none => (l, false)

/-- `Label::push_front`: insert a string part at index 0. -/
def Label.pushFront (LLEN : Nat) (l : Label) (s : List Nat) : Label × Bool :=
  match vecInsert LLEN l.items 0 (.str s) with
  | some items2 => (⟨items2⟩, true)
  | none => (l, false)

/-- `Label::new`: asserts the string does not end with a dot (panic
modelled as `none`), then pushes the whole string as one part, discarding
the push result exactly as the source does. -/
def Label.new (LLEN : Nat) (s : List Nat) : Option Label :=
  if s.getLast? = some dotByte then none
  else some (Label.pushBack LLEN ⟨[]⟩ s).1

/-! ## Label parsing (`Label::do_parse`)

The Rust loop walks `input`, accumulating `run_end` (bytes of `all`
consumed by the current run), and breaks at a terminator or a compression
pointer; the pointer restarts parsing at `context[offset..]` with the
recursion counter decremented.  `doParseGo` is the loop (structural on a
fuel initialised to the input length; the loop consumes at least one byte
per iteration); `recurse` is invoked for the pointer restart and `doParse`
ties the knot by structural recursion on the counter. -/

/-- The run-push step of `Label::do_parse`: when the condition
`is_end || (is_ptr && run_end > 0)` holds, push `&all[..run_end]` as a new
run part — slicing `all` beyond its length is a panic (`.panic`), and a
full parts vector is a `TooLarge` failure. -/
def pushStep (LLEN : Nat) (context : List Nat) (doPush : Bool) (all : List Nat)
    (runEnd2 : Nat) (items : List LabelPart) : PR (List LabelPart) :=
  if doPush then
    if runEnd2 ≤ all.length then
      match vecPush LLEN items (.run ⟨all.take runEnd2, context⟩) with
      | some items2 => .ok [] items2
      | none => .err .tooLarge
    else .panic
  else .ok [] items

def doParseGo (LLEN : Nat) (context : List Nat) (limit : Nat)
    (recurse : List Nat → List LabelPart → PR (List LabelPart)) :
    Nat → List Nat → List Nat → Nat → List LabelPart → PR (List LabelPart)
  | 0, _, input, _, _ => if input.isEmpty then .err .eof else .panic
  | fuel + 1, all, input, runEnd, items =>
    match input with
    | [] => .err .eof
    | len :: newInput =>
      let isEnd : Bool := len == 0
      let isPtr : Bool := (len &&& 0xc0) != 0
      let runEnd2 := if isPtr then runEnd else runEnd + 1
      match pushStep LLEN context (isEnd || (isPtr && runEnd2 != 0)) all runEnd2 items with
      | .err k => .err k
      | .panic => .panic
      | .ok _ items2 =>
        if isEnd then .ok newInput items2
        else if isPtr then
          match newInput with
          | [] => .err .eof
          | b :: rest2 =>
            let offset := (len &&& 0x3f) * 256 + b
            if offset ≤ context.length then
              let pointered := context.drop offset
              if pointered.length < 2 then .err .lengthValue
              else if input.length < 2 then .panic
              else if pointered.take 2 = input.take 2 then .err .lengthValue
              else if limit = 0 then .err .lengthValue
              else
                match recurse pointered items2 with
                | .ok _ items3 => .ok rest2 items3
                | .err k => .err k
                | .panic => .panic
            else .err .lengthValue
        else
          if len ≤ newInput.length then
            let seg := newInput.take len
            if isValidUTF8 seg then
              doParseGo LLEN context limit recurse fuel all (newInput.drop len)
                (runEnd2 + len) items2
            else .err .alphaNumeric
          else .err .eof

/-- `Label::do_parse`, with the recursion counter as the structural
measure for pointer restarts. -/
def doParse (LLEN : Nat) (context : List Nat) :
    Nat → List Nat → List LabelPart → PR (List LabelPart)
  | 0, input, items =>
    doParseGo LLEN context 0 (fun _ _ => .panic) input.length input input 0 items
  | limit + 1, input, items =>
    doParseGo LLEN context (limit + 1)
      (fun ptrd items2 => doParse LLEN context limit ptrd items2)
      input.length input input 0 items

/-- `Label::parse`: asserts a non-empty context (panic modelled as
`.panic`), then runs `do_parse` with recursion counter 4. -/
def Label.parse (LLEN : Nat) (input context : List Nat) : PR Label :=
  if context.isEmpty then .panic
  else
    match doParse LLEN context 4 input [] with
    | .ok rest items => .ok rest ⟨items⟩
    | .err k => .err k
    | .panic => .panic

/-! ## QType, QClass, Flags -/

/-- `QType`: the DNS record/query types the crate knows. -/
inductive QType where
  | a
  | aaaa
  | ptr
  | txt
  | srv
  | any
  | unknown (v : Nat)
  deriving DecidableEq, Repr

/-- `QType::from_u16`. -/
def QType.fromU16 (v : Nat) : QType :=
  if v = 1 then .a
  else if v = 28 then .aaaa
  else if v = 12 then .ptr
  else if v = 16 then .txt
  else if v = 33 then .srv
  else if v = 255 then .any
  else .unknown v

/-- `QType::to_u16`. -/
def QType.toU16 : QType → Nat
  | .a => 1
  | .aaaa => 28
  | .ptr => 12
  | .txt => 16
  | .srv => 33
  | .any => 255
  | .unknown v => v

/-- `QClass`: IN, IN with the cache-flush bit, or unknown.  (`inq` stands
for the source's `IN`, which is a keyword in Lean.) -/
inductive QClass where
  | inq
  | multicast
  | unknown (v : Nat)
  deriving DecidableEq, Repr

/-- `QClass::from_u16`. -/
def QClass.fromU16 (v : Nat) : QClass :=
  if v = 1 then .inq else if v = 32769 then .multicast else .unknown v

/-- `QClass::to_u16`. -/
def QClass.toU16 : QClass → Nat
  | .inq => 1
  | .multicast => 32769
  | .unknown v => v

/-- DNS header flags as a raw 16-bit word (`Flags(pub u16)`). -/
def setQuery (f : Nat) (isQuery : Bool) : Nat :=
  if isQuery then f &&& 0x7FFF else f ||| 0x8000

/-- `Flags::set_opcode` (opcode `Query` is 0). -/
def setOpcode (f : Nat) (op : Nat) : Nat :=
  (f &&& (0xFFFF - 0x7800)) ||| ((op &&& 0x0F) <<< 11)

/-- `Flags::set_authoritative`. -/
def setAuthoritative (f : Nat) (b : Bool) : Nat :=
  if b then f ||| 0x0400 else f &&& (0xFFFF - 0x0400)

/-- `Flags::set_recursion_desired`. -/
def setRecursionDesired (f : Nat) (b : Bool) : Nat :=
  if b then f ||| 0x0100 else f &&& (0xFFFF - 0x0100)

/-- `Flags::set_recursion_available`. -/
def setRecursionAvailable (f : Nat) (b : Bool) : Nat :=
  if b then f ||| 0x0080 else f &&& (0xFFFF - 0x0080)

/-- `Flags::standard_request()`: QR=0, opcode Query, RD=1. -/
def standardRequest : Nat :=
  setRecursionDesired (setOpcode (setQuery 0 true) 0) true

/-- `Flags::standard_response()`: QR=1, opcode Query, AA=1, RA=0. -/
def standardResponse : Nat :=
  setRecursionAvailable (setAuthoritative (setOpcode (setQuery 0 false) 0) true) false

/-! ## Records -/

/-- IP addresses: a v4 address as its 32-bit value, a v6 address as its
eight 16-bit segments. -/
inductive IpAddr where
  | v4 (addr : Nat)
  | v6 (segs : List Nat)
  deriving DecidableEq, Repr

/-- The DNS-SD record payloads. -/
inductive Record where
  | a (address : Nat)
  | aaaa (segs : List Nat)
  | ptr (name : Label)
  | txt (text : List Nat)
  | srv (priority weight port : Nat) (target : Label)
  deriving DecidableEq, Repr

/-- Monadic glue for `PR`. -/
def PR.bind : PR α → (List Nat → α → PR β) → PR β
  | .ok rest v, f => f rest v
  | .err k, _ => .err k
  | .panic, _ => .panic

/-- Group a byte list into big-endian 16-bit segments. -/
def bytePairs : List Nat → List Nat
  | a :: b :: rest => (a * 256 + b) :: bytePairs rest
  | _ => []

/-- `A::parse`: RDLENGTH, then that many bytes, which must be exactly 4. -/
def parseA (input : List Nat) : PR Record :=
  PR.bind (beU16 input) fun input len =>
  PR.bind (takeBytes len input) fun input address =>
  if address.length = 4 then
    .ok input (.a (((address.headD 0 * 256 + (address.drop 1).headD 0) * 256 +
      (address.drop 2).headD 0) * 256 + (address.drop 3).headD 0))
  else .err .fail

/-- `AAAA::parse`: RDLENGTH, then that many bytes, which must be 16. -/
def parseAAAA (input : List Nat) : PR Record :=
  PR.bind (beU16 input) fun input len =>
  PR.bind (takeBytes len input) fun input address =>
  if address.length = 16 then .ok input (.aaaa (bytePairs address))
  else .err .lengthValue

/-- `PTR::parse`: RDLENGTH (ignored), then a name. -/
def parsePTR (LLEN : Nat) (input context : List Nat) : PR Record :=
  PR.bind (beU16 input) fun input _ =>
  PR.bind (Label.parse LLEN input context) fun input name =>
  .ok input (.ptr name)

/-- `TXT::parse`: length-prefixed UTF-8 blob. -/
def parseTXT (input : List Nat) : PR Record :=
  PR.bind (beU16 input) fun input textLen =>
  PR.bind (takeBytes textLen input) fun input text =>
  if isValidUTF8 text then .ok input (.txt text) else .err .alphaNumeric

/-- `SRV::parse`: RDLENGTH (ignored), priority, weight, port, target. -/
def parseSRV (LLEN : Nat) (input context : List Nat) : PR Record :=
  PR.bind (beU16 input) fun input _ =>
  PR.bind (beU16 input) fun input priority =>
  PR.bind (beU16 input) fun input weight =>
  PR.bind (beU16 input) fun input port =>
  PR.bind (Label.parse LLEN input context) fun input target =>
  .ok input (.srv priority weight port target)

/-- `Record::parse`: dispatch on the record type; `Any` and `Unknown`
fail with a tag error. -/
def Record.parse (LLEN : Nat) (input context : List Nat) : QType → PR Record
  | .a => parseA input
  | .aaaa => parseAAAA input
  | .ptr => parsePTR LLEN input context
  | .txt => parseTXT input
  | .srv => parseSRV LLEN input context
  | .any => .err .tag
  | .unknown _ => .err .tag

/-! ## Queries, answers, messages -/

/-- A DNS question: name, type, class. -/
structure Query where
  name : Label
  qtype : QType
  qclass : QClass
  deriving DecidableEq, Repr

/-- A DNS answer: name, type, class, TTL, payload. -/
structure Answer where
  name : Label
  atype : QType
  aclass : QClass
  ttl : Nat
  record : Record
  deriving DecidableEq, Repr

/-- `Query::parse`. -/
def Query.parse (LLEN : Nat) (input context : List Nat) : PR Query :=
  PR.bind (Label.parse LLEN input context) fun input name =>
  PR.bind (beU16 input) fun input qtype =>
  PR.bind (beU16 input) fun input qclass =>
  .ok input ⟨name, QType.fromU16 qtype, QClass.fromU16 qclass⟩

/-- `Answer::parse`. -/
def Answer.parse (LLEN : Nat) (input context : List Nat) : PR Answer :=
  PR.bind (Label.parse LLEN input context) fun input name =>
  PR.bind (beU16 input) fun input atype =>
  PR.bind (beU16 input) fun input aclass =>
  PR.bind (beU32 input) fun input ttl =>
  PR.bind (Record.parse LLEN input context (QType.fromU16 atype)) fun input record =>
  .ok input ⟨name, QType.fromU16 atype, QClass.fromU16 aclass, ttl, record⟩

/-- A DNS request: header and question section. -/
structure Request where
  id : Nat
  flags : Nat
  queries : List Query
  deriving DecidableEq, Repr

/-- A DNS response: header, question section and answer section. -/
structure Response where
  id : Nat
  flags : Nat
  queries : List Query
  answers : List Answer
  deriving DecidableEq, Repr

/-- A parsed message, discriminated by the QR bit. -/
inductive Message where
  | request (r : Request)
  | response (r : Response)
  deriving DecidableEq, Repr

/-- The `for _ in 0..qdcount` loop of `Request::parse`/`Response::parse`:
each stored query must fit the `QLEN` bound. -/
def parseQueries (QLEN LLEN : Nat) (context : List Nat) :
    Nat → List Nat → List Query → PR (List Query)
  | 0, input, acc => .ok input acc
  | n + 1, input, acc =>
    PR.bind (Query.parse LLEN input context) fun input q =>
    match vecPush QLEN acc q with
    | some acc2 => parseQueries QLEN LLEN context n input acc2
    | none => .err .tooLarge

/-- The `for _ in 0..ancount` loop of `Response::parse`. -/
def parseAnswers (ALEN LLEN : Nat) (context : List Nat) :
    Nat → List Nat → List Answer → PR (List Answer)
  | 0, input, acc => .ok input acc
  | n + 1, input, acc =>
    PR.bind (Answer.parse LLEN input context) fun input an =>
    match vecPush ALEN acc an with
    | some acc2 => parseAnswers ALEN LLEN context n input acc2
    | none => .err .tooLarge

/-- `Request::parse`. -/
def Request.parse (QLEN LLEN : Nat) (input : List Nat) : PR Request :=
  let context := input
  PR.bind (beU16 input) fun input id =>
  PR.bind (beU16 input) fun input flags =>
  PR.bind (beU16 input) fun input qdcount =>
  PR.bind (beU16 input) fun input _ancount =>
  PR.bind (beU16 input) fun input _nscount =>
  PR.bind (beU16 input) fun input _arcount =>
  PR.bind (parseQueries QLEN LLEN context qdcount input []) fun input queries =>
  .ok input ⟨id, flags, queries⟩

/-- `Response::parse`. -/
def Response.parse (QLEN ALEN LLEN : Nat) (input : List Nat) : PR Response :=
  let context := input
  PR.bind (beU16 input) fun input id =>
  PR.bind (beU16 input) fun input flags =>
  PR.bind (beU16 input) fun input qdcount =>
  PR.bind (beU16 input) fun input ancount =>
  PR.bind (beU16 input) fun input _nscount =>
  PR.bind (beU16 input) fun input _arcount =>
  PR.bind (parseQueries QLEN LLEN context qdcount input []) fun input queries =>
  PR.bind (parseAnswers ALEN LLEN context ancount input []) fun input answers =>
  .ok input ⟨id, flags, queries, answers⟩

/-- `Message::parse`: reject messages shorter than 4 bytes, peek at the
flags word and demux on the QR bit. -/
def Message.parse (QLEN ALEN LLEN : Nat) (input : List Nat) : PR Message :=
  if input.length < 4 then .err .lengthValue
  else
    PR.bind (beU16 (input.drop 2)) fun _ flags =>
    if flags &&& 0x8000 = 0 then
      PR.bind (Request.parse QLEN LLEN input) fun input r => .ok input (.request r)
    else
      PR.bind (Response.parse QLEN ALEN LLEN input) fun input r => .ok input (.response r)

/-! ## The Writer

A positional byte writer over a caller-supplied buffer, with a sticky
overflow flag and a label-offset memo for name compression.  `Deref` gives
the remaining slice `output[position..]` (empty once overflow is set);
serialisation writes through that slice with plain indexing, which panics
when the index exceeds the remaining length — those writes return
`Option`, `none` marking the panic. -/

structure Writer where
  output : List Nat
  position : Nat
  overflow : Bool
  lookup : List (List Nat × Nat)
  deriving DecidableEq, Repr

/-- Overwrite `data.length` bytes of `l` starting at `pos` (callers
guarantee the range is in bounds). -/
def setAt (l : List Nat) (pos : Nat) (data : List Nat) : List Nat :=
  l.take pos ++ data ++ l.drop (pos + data.length)

/-- `Writer::new`. -/
def Writer.new (buffer : List Nat) : Writer := ⟨buffer, 0, false, []⟩

/-- `Writer::write`: append bytes; out of space sets the sticky overflow
flag and writes nothing. -/
def Writer.write (w : Writer) (data : List Nat) : Writer :=
  if w.overflow then w
  else if w.output.length < w.position + data.length then { w with overflow := true }
  else { w with output := setAt w.output w.position data,
                position := w.position + data.length }

/-- `Writer::write_u8`. -/
def Writer.writeU8 (w : Writer) (b : Nat) : Writer :=
  if w.overflow then w
  else if w.output.length ≤ w.position then { w with overflow := true }
  else { w with output := setAt w.output w.position [b], position := w.position + 1 }

/-- `Writer::inc`: advance the cursor; out of range sets overflow. -/
def Writer.inc (w : Writer) (v : Nat) : Writer :=
  if w.overflow then w
  else if w.output.length < w.position + v then { w with overflow := true }
  else { w with position := w.position + v }

/-- `Writer::find_label`: first memo entry with an exactly equal string. -/
def Writer.findLabel (w : Writer) (label : List Nat) : Option Nat :=
  (w.lookup.find? (fun o => o.1 == label)).map (fun o => o.2)

/-- `Writer::push_label`: record `(label, position + offset)`; silently
dropped when the memo is full. -/
def Writer.pushLabel (LK : Nat) (w : Writer) (label : List Nat) (offset : Nat) : Writer :=
  match vecPush LK w.lookup (label, w.position + offset) with
  | some lk => { w with lookup := lk }
  | none => w

/-- A back-patch handle from `Writer::reserve`. -/
structure Reservation where
  start : Nat
  len : Nat
  deriving DecidableEq, Repr

/-- `Writer::reserve`. -/
def Writer.reserve (w : Writer) (len : Nat) : Reservation × Writer :=
  (⟨w.position, len⟩, w.inc len)

/-- `Writer::distance_from_reservation` (`position - start`; only read in
non-overflow runs, where the cursor has passed the reservation). -/
def Writer.distanceFromReservation (w : Writer) (r : Reservation) : Nat :=
  w.position - r.start

/-- `Writer::write_reservation`: back-patch the reserved bytes; a no-op
after overflow; panics (`none`) if the range or length is wrong. -/
def Writer.writeReservation (w : Writer) (r : Reservation) (data : List Nat) : Option Writer :=
  if w.overflow then some w
  else if r.start + r.len ≤ w.output.length ∧ data.length = r.len then
    some { w with output := setAt w.output r.start data }
  else none

/-- Length of the `Deref` slice `&w[..]` (empty once overflow is set). -/
def Writer.derefLen (w : Writer) : Nat :=
  if w.overflow then 0 else w.output.length - w.position

/-- `w[..data.len()].copy_from_slice(data)`: write through the `Deref`
slice at the cursor, without advancing; panics (`none`) when fewer than
`data.length` bytes remain — in particular always when overflow is set and
`data` is non-empty, since the slice is then empty. -/
def Writer.derefCopy (w : Writer) (data : List Nat) : Option Writer :=
  if data.length ≤ w.derefLen then
    some (if w.overflow then w else { w with output := setAt w.output w.position data })
  else none

/-- The ubiquitous source pairing `w[..2].copy_from_slice(&v.to_be_bytes());
w.inc(2);` for a 16-bit big-endian value. -/
def Writer.putU16 (w : Writer) (v : Nat) : Option Writer :=
  (w.derefCopy [v % 65536 / 256, v % 256]).map (fun w2 => w2.inc 2)

/-- Big-endian bytes of a `u16` (with the `as u16` truncation). -/
def beBytes2 (v : Nat) : List Nat := [v % 65536 / 256, v % 256]

/-- Big-endian bytes of a `u32`. -/
def beBytes4 (v : Nat) : List Nat :=
  [v % 4294967296 / 16777216, v / 65536 % 256, v / 256 % 256, v % 256]

/-! ## Serialising labels -/

/-- `serialize_str_single`: write `len as u8` then the bytes of `v` into
the `Deref` slice (panicking when they do not fit), returning `1 + len`. -/
def serializeStrSingle (v : List Nat) (w : Writer) : Option Writer :=
  w.derefCopy ((v.length % 256) :: v)

/-- The code after the `serialize_str` loop: terminate the name with a
zero byte when this was the last part. -/
def serializeStrEnd (isLast : Bool) (w : Writer) : Option Writer :=
  if isLast then (w.derefCopy [0]).map (fun w2 => w2.inc 1) else some w

/-- The `serialize_str` loop over the remaining dotted string: for the
last part, a memo hit emits a two-byte compression pointer and returns at
once (no terminator); otherwise the next dotted segment is emitted
literally, the remaining suffix is recorded in the memo, and the loop
continues past the dot.  Fuel is the string length plus one; each
iteration consumes at least one byte. -/
def serializeStrGo (LK : Nat) : Nat → List Nat → Bool → Writer → Option Writer
  | 0, rest, isLast, w => if rest.isEmpty then serializeStrEnd isLast w else none
  | fuel + 1, rest, isLast, w =>
    if rest.isEmpty then serializeStrEnd isLast w
    else
      match (if isLast then w.findLabel rest else none) with
      | some pos =>
        let pointer := 0xc000 ||| (pos % 65536)
        (w.derefCopy [pointer / 256, pointer % 256]).map (fun w2 => w2.inc 2)
      | none =>
        let next := dotPart rest
        match serializeStrSingle next w with
        | none => none
        | some w2 =>
          let w3 := (w2.pushLabel LK rest 0).inc (1 + next.length)
          if next.length = rest.length then serializeStrEnd isLast w3
          else serializeStrGo LK fuel (rest.drop (next.length + 1)) isLast w3

/-- `serialize_str`. -/
def serializeStr (LK : Nat) (v : List Nat) (isLast : Bool) (w : Writer) : Option Writer :=
  serializeStrGo LK (v.length + 1) v isLast w

/-- `LabelRun::do_serialize`, phrased as the bytes the loop would emit:
literal segments are copied verbatim, a terminator emits the single zero
byte and stops, and a compression pointer redirects into the context
(unbounded in the source, hence the fuel; parse-produced runs are
pointer-free).  `none` marks the panics (`data[1]`, `&context[offset..]`,
`&data[..len + 1]` out of bounds) and the divergent cyclic case. -/
def runBytesGo (context : List Nat) : Nat → List Nat → Option (List Nat)
  | 0, data => if data.isEmpty then some [] else none
  | fuel + 1, data =>
    match data with
    | [] => some []
    | len :: tail =>
      if len = 0 then some [0]
      else if (len &&& 0xc0) != 0 then
        match tail with
        | [] => none
        | b :: _ =>
          let offset := (len &&& 0x3f) * 256 + b
          if offset ≤ context.length then runBytesGo context fuel (context.drop offset)
          else none
      else
        if len + 1 ≤ data.length then
          (runBytesGo context fuel (data.drop (len + 1))).map
            (fun bs => data.take (len + 1) ++ bs)
        else none

/-- `LabelRun::serialize`: emit the run bytes through the `Deref` slice,
then `inc`. -/
def LabelRun.serialize (r : LabelRun) (w : Writer) : Option Writer :=
  match runBytesGo r.context (r.run.length + r.context.length + 1) r.run with
  | none => none
  | some bs => (w.derefCopy bs).map (fun w2 => w2.inc bs.length)

/-- `LabelPart::serialize` (a run ignores `is_last`). -/
def LabelPart.serialize (LK : Nat) : LabelPart → Bool → Writer → Option Writer
  | .run r, _, w => LabelRun.serialize r w
  | .str s, isLast, w => serializeStr LK s isLast w

/-- The peekable loop of `Label::serialize`: every part but the last is
serialised with `is_last = false`. -/
def serializeParts (LK : Nat) : List LabelPart → Writer → Option Writer
  | [], w => some w
  | [p], w => LabelPart.serialize LK p true w
  | p :: rest, w => (LabelPart.serialize LK p false w).bind (serializeParts LK rest)

/-- `Label::serialize`. -/
def Label.serialize (LK : Nat) (l : Label) (w : Writer) : Option Writer :=
  serializeParts LK l.items w

/-! ## Serialising records and messages -/

/-- Octets of a v4 address value. -/
def v4Octets (v : Nat) : List Nat :=
  [v % 4294967296 / 16777216, v / 65536 % 256, v / 256 % 256, v % 256]

/-- Octets of a v6 address given as eight 16-bit segments. -/
def v6Octets (segs : List Nat) : List Nat :=
  segs.flatMap (fun s => [s % 65536 / 256, s % 256])

/-- `A::serialize`. -/
def serializeA (address : Nat) (w : Writer) : Option Writer :=
  (w.putU16 4).bind fun w2 => (w2.derefCopy (v4Octets address)).map (fun w3 => w3.inc 4)

/-- `AAAA::serialize`. -/
def serializeAAAA (segs : List Nat) (w : Writer) : Option Writer :=
  (w.putU16 16).bind fun w2 => (w2.derefCopy (v6Octets segs)).map (fun w3 => w3.inc 16)

/-- `TXT::serialize`: the `copy_from_slice` panics when the `as u16`
truncation of the length disagrees with the actual text length. -/
def serializeTXT (text : List Nat) (w : Writer) : Option Writer :=
  (w.putU16 text.length).bind fun w2 =>
  if text.length % 65536 = text.length then
    (w2.derefCopy text).map (fun w3 => w3.inc (text.length % 65536))
  else none

/-- `PTR::serialize`: reserve RDLENGTH, serialise the name, back-patch. -/
def serializePTR (LK : Nat) (name : Label) (w : Writer) : Option Writer :=
  let rw := w.reserve 2
  (Label.serialize LK name rw.2).bind fun w2 =>
  w2.writeReservation rw.1 (beBytes2 (w2.distanceFromReservation rw.1 - 2))

/-- `SRV::serialize`. -/
def serializeSRV (LK : Nat) (priority weight port : Nat) (target : Label)
    (w : Writer) : Option Writer :=
  let rw := w.reserve 2
  (rw.2.putU16 priority).bind fun w2 =>
  (w2.putU16 weight).bind fun w3 =>
  (w3.putU16 port).bind fun w4 =>
  (Label.serialize LK target w4).bind fun w5 =>
  w5.writeReservation rw.1 (beBytes2 (w5.distanceFromReservation rw.1 - 2))

/-- `Record::serialize`. -/
def Record.serialize (LK : Nat) : Record → Writer → Option Writer
  | .a address, w => serializeA address w
  | .aaaa segs, w => serializeAAAA segs w
  | .ptr name, w => serializePTR LK name w
  | .txt text, w => serializeTXT text w
  | .srv priority weight port target, w => serializeSRV LK priority weight port target w

/-- `Query::serialize` (`qtype`/`qclass` go through `Writer::write`, which
never panics). -/
def Query.serialize (LK : Nat) (q : Query) (w : Writer) : Option Writer :=
  (Label.serialize LK q.name w).map fun w2 =>
  (w2.write (beBytes2 q.qtype.toU16)).write (beBytes2 q.qclass.toU16)

/-- `Answer::serialize`. -/
def Answer.serialize (LK : Nat) (an : Answer) (w : Writer) : Option Writer :=
  (Label.serialize LK an.name w).bind fun w2 =>
  Record.serialize LK an.record
    (((w2.write (beBytes2 an.atype.toU16)).write (beBytes2 an.aclass.toU16)).write
      (beBytes4 an.ttl))

/-- The `for query in self.queries` serialisation loop. -/
def serializeQueryList (LK : Nat) : List Query → Writer → Option Writer
  | [], w => some w
  | q :: rest, w => (Query.serialize LK q w).bind (serializeQueryList LK rest)

/-- The `for answer in self.answers` serialisation loop. -/
def serializeAnswerList (LK : Nat) : List Answer → Writer → Option Writer
  | [], w => some w
  | an :: rest, w => (Answer.serialize LK an w).bind (serializeAnswerList LK rest)

/-- `Request::serialize`: id, flags, QDCOUNT, three zero counts, queries. -/
def Request.serialize (LK : Nat) (r : Request) (w : Writer) : Option Writer :=
  (w.putU16 r.id).bind fun w1 =>
  (w1.putU16 r.flags).bind fun w2 =>
  (w2.putU16 r.queries.length).bind fun w3 =>
  (w3.putU16 0).bind fun w4 =>
  (w4.putU16 0).bind fun w5 =>
  (w5.putU16 0).bind fun w6 =>
  serializeQueryList LK r.queries w6

/-- `Response::serialize`. -/
def Response.serialize (LK : Nat) (r : Response) (w : Writer) : Option Writer :=
  (w.putU16 r.id).bind fun w1 =>
  (w1.putU16 r.flags).bind fun w2 =>
  (w2.putU16 r.queries.length).bind fun w3 =>
  (w3.putU16 r.answers.length).bind fun w4 =>
  (w4.putU16 0).bind fun w5 =>
  (w5.putU16 0).bind fun w6 =>
  (serializeQueryList LK r.queries w6).bind (serializeAnswerList LK r.answers)

/-- `Message::serialize`: wrap the caller's buffer in a fresh writer and
return the final buffer and `w.len()`. -/
def Message.serialize (LK : Nat) (m : Message) (output : List Nat) :
    Option (List Nat × Nat) :=
  let w := Writer.new output
  match (match m with
         | .request r => Request.serialize LK r w
         | .response r => Response.serialize LK r w) with
  | some w2 => some (w2.output, w2.position)
  | none => none

/-! ## ServiceInfo -/

/-- Information about a service declared (or discovered) over mDNS. -/
structure ServiceInfo where
  service_type : Label
  instance_name : Label
  hostname : Label
  ip_address : IpAddr
  netmask : IpAddr
  port : Nat
  deriving DecidableEq, Repr

/-- `DEFAULT_ADDR`: `0.0.0.0`. -/
def defaultAddr : IpAddr := .v4 0

/-- `NETMASK_FULL_V4`: `255.255.255.255`. -/
def netmaskFullV4 : IpAddr := .v4 4294967295

/-- `NETMASK_FULL_V6`: all-ones segments. -/
def netmaskFullV6 : IpAddr := .v6 (List.replicate 8 65535)

/-- `ServiceInfo::new`: build the labels (`Label::new` panics on a
trailing dot, hence `Option`); the instance name is the service type with
the instance segment pushed in front, the push result discarded as in the
source. -/
def ServiceInfo.new (LLEN : Nat) (service_type instance_name hostname : List Nat)
    (ip netmask : IpAddr) (port : Nat) : Option ServiceInfo :=
  (Label.new LLEN service_type).bind fun st =>
  (Label.new LLEN hostname).bind fun hn =>
  some ⟨st, (st.pushFront LLEN instance_name).1, hn, ip, netmask, port⟩

/-- `ServiceInfo::ptr_answer`: always class IN, TTL 4500. -/
def ptrAnswer (svc : ServiceInfo) (_aclass : QClass) : Answer :=
  ⟨svc.service_type, .ptr, .inq, 4500, .ptr svc.instance_name⟩

/-- `ServiceInfo::srv_answer`. -/
def srvAnswer (svc : ServiceInfo) (aclass : QClass) : Answer :=
  ⟨svc.instance_name, .srv, aclass, 120, .srv 0 0 svc.port svc.hostname⟩

/-- `ServiceInfo::txt_answer`: the text is the single NUL byte. -/
def txtAnswer (svc : ServiceInfo) (aclass : QClass) : Answer :=
  ⟨svc.instance_name, .txt, aclass, 120, .txt [0]⟩

/-- `ServiceInfo::ip_answer`: A carries the given class, AAAA always IN. -/
def ipAnswer (svc : ServiceInfo) (aclass : QClass) : Answer :=
  match svc.ip_address with
  | .v4 a => ⟨svc.hostname, .a, aclass, 120, .a a⟩
  | .v6 segs => ⟨svc.hostname, .aaaa, .inq, 120, .aaaa segs⟩

/-- `ServiceInfo::as_answers`: PTR, SRV, TXT, then A-or-AAAA. -/
def asAnswers (svc : ServiceInfo) (aclass : QClass) : List Answer :=
  [ptrAnswer svc aclass, srvAnswer svc aclass, txtAnswer svc aclass, ipAnswer svc aclass]

/-- Step 1 of `ServiceInfo::from_answers`: one stub per PTR answer,
silently dropped when the bounded output is full. -/
def fromAnswersStep1 (SLEN : Nat) : List Answer → List ServiceInfo → List ServiceInfo
  | [], out => out
  | an :: rest, out =>
    match an.record with
    | .ptr p =>
      let stub : ServiceInfo := ⟨an.name, p, ⟨[]⟩, defaultAddr, defaultAddr, 0⟩
      match vecPush SLEN out stub with
      | some out2 => fromAnswersStep1 SLEN rest out2
      | none => fromAnswersStep1 SLEN rest out
    | _ => fromAnswersStep1 SLEN rest out

/-- Step 2: merge SRV data into every stub whose instance name matches. -/
def fromAnswersStep2 : List Answer → List ServiceInfo → List ServiceInfo
  | [], out => out
  | an :: rest, out =>
    match an.record with
    | .srv _ _ port target =>
      fromAnswersStep2 rest (out.map fun stub =>
        if labelEq stub.instance_name an.name then
          { stub with hostname := target, port := port }
        else stub)
    | _ => fromAnswersStep2 rest out

/-- Step 3: merge A/AAAA data into every stub whose hostname matches. -/
def fromAnswersStep3 : List Answer → List ServiceInfo → List ServiceInfo
  | [], out => out
  | an :: rest, out =>
    match an.record with
    | .a a =>
      fromAnswersStep3 rest (out.map fun stub =>
        if labelEq stub.hostname an.name then
          { stub with ip_address := .v4 a, netmask := netmaskFullV4 }
        else stub)
    | .aaaa segs =>
      fromAnswersStep3 rest (out.map fun stub =>
        if labelEq stub.hostname an.name then
          { stub with ip_address := .v6 segs, netmask := netmaskFullV6 }
        else stub)
    | _ => fromAnswersStep3 rest out

/-- `ServiceInfo::from_answers`: the three passes, then retain only
complete stubs. -/
def ServiceInfo.fromAnswers (SLEN : Nat) (answers : List Answer)
    (output : List ServiceInfo) : List ServiceInfo :=
  (fromAnswersStep3 answers (fromAnswersStep2 answers
      (fromAnswersStep1 SLEN answers output))).filter fun stub =>
    !(labelIsEmpty stub.service_type) && !(labelIsEmpty stub.instance_name) &&
    !(labelIsEmpty stub.hostname) && stub.ip_address != defaultAddr && stub.port != 0

/-! ## The server -/

/-- `LocalIp`. -/
structure LocalIp where
  addr : IpAddr
  mask : IpAddr
  deriving DecidableEq, Repr

/-- `QueryTarget`: a service type to query for in discovery-only mode. -/
structure QueryTarget where
  service_type : Label
  local_ip : LocalIp
  deriving DecidableEq, Repr

/-- The server state. -/
structure Server where
  last_now : Nat
  services : List ServiceInfo
  query_targets : List QueryTarget
  local_ips : List LocalIp
  next_advertise : Nat
  next_advertise_idx : Nat
  next_query : Nat
  next_query_idx : Nat
  txid_query : Nat
  next_txid : Nat
  deriving DecidableEq, Repr

/-- A socket address. -/
structure SockAddr where
  ip : IpAddr
  port : Nat
  deriving DecidableEq, Repr

/-- `Cast`: routing hint for outgoing packets. -/
inductive Cast where
  | multi (fromIp : IpAddr)
  | uni (fromIp : IpAddr) (target : SockAddr)
  deriving DecidableEq, Repr

/-- `Input` to `Server::handle`. -/
inductive Input where
  | timeout (t : Nat)
  | packet (data : List Nat) (src : SockAddr)
  deriving DecidableEq, Repr

/-- `Output` of `Server::handle`. -/
inductive Output where
  | packet (n : Nat) (cast : Cast)
  | timeout (t : Nat)
  | remote (svc : ServiceInfo)
  deriving DecidableEq, Repr

/-- `ADVERTISE_INTERVAL` (ms). -/
def advertiseInterval : Nat := 15000

/-- `QUERY_INTERVAL` (ms). -/
def queryInterval : Nat := 19000

/-- `u64::MAX`. -/
def u64Max : Nat := 2 ^ 64 - 1

/-- `Time + u64` (u64 addition; wraps in release builds). -/
def timeAdd (t v : Nat) : Nat := (t + v) % 2 ^ 64

/-- The `local_ips` construction loop of `Server::new`: dedup the
`(ip, netmask)` pair of every service in insertion order; the source
`unwrap`s the push, so exhaustion is a panic (`none` — unreachable, since
the deduped list is never longer than the services list). -/
def localIpsFromServices (SLEN : Nat) : List ServiceInfo → List LocalIp → Option (List LocalIp)
  | [], acc => some acc
  | svc :: rest, acc =>
    let loc : LocalIp := ⟨svc.ip_address, svc.netmask⟩
    if acc.any (fun l => l == loc) then localIpsFromServices SLEN rest acc
    else
      match vecPush SLEN acc loc with
      | some acc2 => localIpsFromServices SLEN rest acc2
      | none => none

/-- `Server::new`.  `services.extend(iter)` is modelled as storing the
first `SLEN` services; the growable and the bounded configuration agree on
every input that fits the capacity. -/
def Server.new (SLEN : Nat) (iter : List ServiceInfo) : Option Server :=
  let services := iter.take SLEN
  (localIpsFromServices SLEN services []).map fun local_ips =>
    let has_services := !services.isEmpty
    { last_now := 0
      services := services
      query_targets := []
      local_ips := local_ips
      next_advertise := if has_services then 3000 else u64Max
      next_advertise_idx := 0
      next_query := if has_services then 5000 else u64Max
      next_query_idx := 0
      txid_query := 0
      next_txid := 1 }

/-- `Server::query`: register a discovery-only query target (the pushes
are silently dropped when full) and fire the next query immediately.
`Label::new` can panic on a trailing dot, hence `Option`. -/
def Server.query (SLEN LLEN : Nat) (s : Server) (service_type : List Nat)
    (ip netmask : IpAddr) : Option Server :=
  (Label.new LLEN service_type).map fun label =>
  let local_ip : LocalIp := ⟨ip, netmask⟩
  let query_targets :=
    match vecPush SLEN s.query_targets ⟨label, local_ip⟩ with
    | some v => v
    | none => s.query_targets
  let local_ips :=
    if s.local_ips.any (fun l => l == local_ip) then s.local_ips
    else
      match vecPush SLEN s.local_ips local_ip with
      | some v => v
      | none => s.local_ips
  { s with query_targets := query_targets, local_ips := local_ips,
           next_query := s.last_now }

/-- `Server::poll_timeout`. -/
def Server.pollTimeout (s : Server) : Nat :=
  if s.services.isEmpty then s.next_query else min s.next_advertise s.next_query

/-- `Server::next_txid`: post-incremented with wrapping. -/
def Server.takeTxid (s : Server) : Nat × Server :=
  (s.next_txid, { s with next_txid := (s.next_txid + 1) % 65536 })

/-- `is_same_network`: per-family masked comparison; mixed families never
match. -/
def isSameNetwork : IpAddr → IpAddr → IpAddr → Bool
  | .v4 ip, .v4 mask, .v4 other => (ip &&& mask) == (other &&& mask)
  | .v6 ip, .v6 mask, .v6 other =>
    ((ip.zip mask).zip other).all fun p => (p.1.1 &&& p.1.2) == (p.2 &&& p.1.2)
  | _, _, _ => false

/-- `is_matching_service`: the service type is locally handled (declared
or queried for) and the discovered instance is not the local identity. -/
def isMatchingService (s1 : ServiceInfo) (services : List ServiceInfo)
    (query_targets : List QueryTarget) : Bool :=
  let handled := services.any (fun s2 => labelEq s1.service_type s2.service_type) ||
    query_targets.any (fun qt => labelEq s1.service_type qt.service_type)
  let isSelf := services.any fun s2 =>
    labelEq s1.instance_name s2.instance_name &&
    s1.ip_address == s2.ip_address && s1.port == s2.port
  handled && !isSelf

/-- `Server::do_advertise`: answers of every service on the given local
ip (bounded by `ALEN`), serialised as a multicast response with id 0. -/
def Server.doAdvertise (ALEN LK : Nat) (s : Server) (buffer : List Nat)
    (loc : LocalIp) : Option (Server × Output) :=
  let answers := ((s.services.filter fun svc =>
    svc.ip_address == loc.addr && svc.netmask == loc.mask).flatMap fun svc =>
      asAnswers svc .multicast).take ALEN
  let response : Response := ⟨0, standardResponse, [], answers⟩
  (Response.serialize LK response (Writer.new buffer)).map fun w =>
    (s, .packet w.position (.multi loc.addr))

/-- `Server::do_query`: a fresh transaction id (recorded in `txid_query`),
one PTR/IN query per matching service and query target (bounded by
`QLEN`), serialised as a multicast request. -/
def Server.doQuery (QLEN LK : Nat) (s : Server) (buffer : List Nat)
    (loc : LocalIp) : Option (Server × Output) :=
  let ts := s.takeTxid
  let s2 := { ts.2 with txid_query := ts.1 }
  let serviceQueries := (s2.services.filter fun svc =>
    svc.ip_address == loc.addr && svc.netmask == loc.mask).map fun svc =>
      (⟨svc.service_type, .ptr, .inq⟩ : Query)
  let targetQueries := (s2.query_targets.filter fun qt =>
    qt.local_ip == loc).map fun qt => (⟨qt.service_type, .ptr, .inq⟩ : Query)
  let request : Request := ⟨ts.1, standardRequest, (serviceQueries ++ targetQueries).take QLEN⟩
  (Request.serialize LK request (Writer.new buffer)).map fun w =>
    (s2, .packet w.position (.multi loc.addr))

/-- `Server::handle_timeout`: record the clock, then fire an advertise
round, a query round, or report the next deadline.  The round-robin index
lookups are Rust slice indexing, so an out-of-range index is a panic
(`none`); it is unreachable from reachable states. -/
def Server.handleTimeout (QLEN ALEN LK : Nat) (s0 : Server) (now : Nat)
    (buffer : List Nat) : Option (Server × Output) :=
  let s := { s0 with last_now := now }
  if !s.services.isEmpty && s.next_advertise ≤ now then
    match s.local_ips[s.next_advertise_idx]? with
    | none => none
    | some send_from =>
      (s.doAdvertise ALEN LK buffer send_from).map fun r =>
        let s3 := { r.1 with next_advertise_idx := r.1.next_advertise_idx + 1 }
        if s3.next_advertise_idx = s3.local_ips.length then
          ({ s3 with next_advertise_idx := 0,
                     next_advertise := timeAdd now advertiseInterval }, r.2)
        else (s3, r.2)
  else if !s.local_ips.isEmpty && s.next_query ≤ now then
    match s.local_ips[s.next_query_idx]? with
    | none => none
    | some send_from =>
      (s.doQuery QLEN LK buffer send_from).map fun r =>
        let s3 := { r.1 with next_query_idx := r.1.next_query_idx + 1 }
        if s3.next_query_idx = s3.local_ips.length then
          ({ s3 with next_query_idx := 0,
                     next_query := timeAdd now queryInterval }, r.2)
        else (s3, r.2)
  else some (s, .timeout s.pollTimeout)

/-- The response built by `Server::handle_request` when it answers: `none`
collapses the three early `Output::Timeout(poll_timeout)` returns (no
queries, self-echo by transaction id, no matching answers).  The answer
list collects `as_answers(qclass)` of every stored service matched by a
PTR query on the requester's subnet, bounded by `ALEN`. -/
def Server.requestResponse (ALEN : Nat) (s : Server) (req : Request)
    (src : SockAddr) : Option Response :=
  match req.queries with
  | [] => none
  | q0 :: _ =>
    if req.id == s.txid_query then none
    else
      let qclass := q0.qclass
      let answers := (req.queries.flatMap fun q => s.services.flatMap fun svc =>
        if q.qtype == QType.ptr && labelEq q.name svc.service_type &&
            isSameNetwork svc.ip_address svc.netmask src.ip then
          asAnswers svc qclass
        else []).take ALEN
      if answers.isEmpty then none
      else some ⟨req.id, standardResponse, req.queries, answers⟩

/-- `Server::handle_request`: serialise the built response (if any),
choose the send-from address as the first local ip on the requester's
subnet (the source `unwrap`s this lookup: `none` marks that panic), and
unicast iff the first query's class was plain IN. -/
def Server.handleRequest (ALEN LK : Nat) (s : Server) (req : Request)
    (src : SockAddr) (buffer : List Nat) : Option (Server × Output) :=
  match s.requestResponse ALEN req src with
  | none => some (s, .timeout s.pollTimeout)
  | some response =>
    (Response.serialize LK response (Writer.new buffer)).bind fun w =>
    match s.local_ips.find? (fun l => isSameNetwork l.addr l.mask src.ip) with
    | none => none
    | some sendFrom =>
      let cast := match req.queries.head? with
        | some q0 =>
          if q0.qclass == QClass.inq then Cast.uni sendFrom.addr src
          else Cast.multi sendFrom.addr
        | none => Cast.multi sendFrom.addr
      some (s, .packet w.position cast)

/-- `Server::handle_response`: assemble services from the answers, keep
the matching non-self ones, surface the first as `Remote`. -/
def Server.handleResponse (SLEN : Nat) (s : Server) (resp : Response) : Server × Output :=
  let found := (ServiceInfo.fromAnswers SLEN resp.answers []).filter fun sv =>
    isMatchingService sv s.services s.query_targets
  match found with
  | [] => (s, .timeout s.pollTimeout)
  | sv :: _ => (s, .remote sv)

/-- `Server::handle_packet`: parse failures return the poll timeout. -/
def Server.handlePacket (QLEN ALEN LLEN SLEN LK : Nat) (s : Server)
    (data : List Nat) (src : SockAddr) (buffer : List Nat) : Option (Server × Output) :=
  match Message.parse QLEN ALEN LLEN data with
  | .ok _ (.request r) => s.handleRequest ALEN LK r src buffer
  | .ok _ (.response r) => some (s.handleResponse SLEN r)
  | .err _ => some (s, .timeout s.pollTimeout)
  | .panic => none

/-- `Server::handle`. -/
def Server.handle (QLEN ALEN LLEN SLEN LK : Nat) (s : Server) (input : Input)
    (buffer : List Nat) : Option (Server × Output) :=
  match input with
  | .timeout now => s.handleTimeout QLEN ALEN LK now buffer
  | .packet data src => s.handlePacket QLEN ALEN LLEN SLEN LK data src buffer

/-- Hosts pass `Time` values, which are `u64` in the source. -/
def validInput : Input → Prop
  | .timeout t => t < 2 ^ 64
  | .packet _ _ => True

/-- Server states reachable from `Server::new` by `handle` and `query`
calls (through non-panicking executions, which are the only ones that
return a state). -/
inductive Reachable (QLEN ALEN LLEN SLEN LK : Nat) : Server → Prop where
  | base (infos : List ServiceInfo) (s : Server) :
      Server.new SLEN infos = some s → Reachable QLEN ALEN LLEN SLEN LK s
  | step (s s2 : Server) (input : Input) (buffer : List Nat) (out : Output) :
      Reachable QLEN ALEN LLEN SLEN LK s → validInput input →
      Server.handle QLEN ALEN LLEN SLEN LK s input buffer = some (s2, out) →
      Reachable QLEN ALEN LLEN SLEN LK s2
  | queryStep (s s2 : Server) (st : List Nat) (ip mask : IpAddr) :
      Reachable QLEN ALEN LLEN SLEN LK s →
      Server.query SLEN LLEN s st ip mask = some s2 →
      Reachable QLEN ALEN LLEN SLEN LK s2

/-- The timer fields hold `u64` values, and a server without services
keeps `next_advertise` pinned at `u64::MAX` (only `Server::new` sets it
and only the advertise round, guarded on non-empty services, moves it). -/
def serverInv (s : Server) : Prop :=
  s.last_now < 2 ^ 64 ∧ s.next_advertise < 2 ^ 64 ∧ s.next_query < 2 ^ 64 ∧
  (s.services = [] → s.next_advertise = u64Max)

/-- Every stored service's `(ip, netmask)` pair has an entry in
`local_ips` (inserted at construction, never removed). -/
def svcIpsInv (s : Server) : Prop :=
  ∀ svc ∈ s.services, ∃ l ∈ s.local_ips,
    l.addr = svc.ip_address ∧ l.mask = svc.netmask

/-! ## Concrete instances

Concrete values used to evaluate the model: a built label, a demo
service, a fresh one-service server, a matching request, and the message
whose serialised form the parser rejects. -/

/-- A label with a single built string part, as `Label::new` produces. -/
def mkStrLabel (s : List Nat) : Label := ⟨[.str s]⟩

/-- Bytes of the string `_svc._udp.local`. -/
def svcTypeBytes : List Nat :=
  [95, 115, 118, 99, 46, 95, 117, 100, 112, 46, 108, 111, 99, 97, 108]

/-- Bytes of the string `inst`. -/
def instBytes : List Nat := [105, 110, 115, 116]

/-- Bytes of the string `host.local`. -/
def hostBytes : List Nat := [104, 111, 115, 116, 46, 108, 111, 99, 97, 108]

/-- A demo service on 192.168.0.1/24, port 1234, exactly as
`ServiceInfo::new` builds it from the strings above. -/
def svcDemo : ServiceInfo :=
  { service_type := mkStrLabel svcTypeBytes
    instance_name := ⟨[.str instBytes, .str svcTypeBytes]⟩
    hostname := mkStrLabel hostBytes
    ip_address := .v4 3232235521
    netmask := .v4 4294967040
    port := 1234 }

/-- The server `Server::new` returns for the single demo service. -/
def serverDemo : Server :=
  { last_now := 0
    services := [svcDemo]
    query_targets := []
    local_ips := [⟨.v4 3232235521, .v4 4294967040⟩]
    next_advertise := 3000
    next_advertise_idx := 0
    next_query := 5000
    next_query_idx := 0
    txid_query := 0
    next_txid := 1 }

/-- The server `Server::new` returns for an empty service list. -/
def serverEmpty : Server :=
  { last_now := 0
    services := []
    query_targets := []
    local_ips := []
    next_advertise := u64Max
    next_advertise_idx := 0
    next_query := u64Max
    next_query_idx := 0
    txid_query := 0
    next_txid := 1 }

/-- A PTR/IN request for the demo service type, transaction id 7. -/
def reqDemo : Request := ⟨7, 0, [⟨mkStrLabel svcTypeBytes, .ptr, .inq⟩]⟩

/-- A requester at 192.168.0.66:5353, on the demo service's subnet. -/
def srcDemo : SockAddr := ⟨.v4 3232235586, 5353⟩

/-- The response the request handler builds for `reqDemo`. -/
def respDemo : Response :=
  ⟨7, standardResponse, reqDemo.queries, asAnswers svcDemo .inq⟩

/-- Six queries whose names share ever-longer suffixes
(`a`, `b.a`, …, `f.e.d.c.b.a`): the compressing serialiser emits a chain
of five pointers for the sixth name, one more than the parser's recursion
counter of 4 allows. -/
def msg6 : Message := .request
  ⟨0, 0,
   [⟨mkStrLabel [97], .a, .inq⟩,
    ⟨mkStrLabel [98, 46, 97], .a, .inq⟩,
    ⟨mkStrLabel [99, 46, 98, 46, 97], .a, .inq⟩,
    ⟨mkStrLabel [100, 46, 99, 46, 98, 46, 97], .a, .inq⟩,
    ⟨mkStrLabel [101, 46, 100, 46, 99, 46, 98, 46, 97], .a, .inq⟩,
    ⟨mkStrLabel [102, 46, 101, 46, 100, 46, 99, 46, 98, 46, 97], .a, .inq⟩]⟩

/-- The 59 bytes `Message::serialize` emits for `msg6` into a 256-byte
buffer (proved below): each name after the first ends in a pointer to the
start of the previous one, so the sixth name is a five-pointer chain. -/
def msg6Packet : List Nat :=
  [0, 0, 0, 0, 0, 6, 0, 0, 0, 0, 0, 0,
   1, 97, 0, 0, 1, 0, 1,
   1, 98, 192, 12, 0, 1, 0, 1,
   1, 99, 192, 19, 0, 1, 0, 1,
   1, 100, 192, 27, 0, 1, 0, 1,
   1, 101, 192, 35, 0, 1, 0, 1,
   1, 102, 192, 43, 0, 1, 0, 1]

/-! # Theorems -/

/-! ## Helper lemmas for label iteration -/

/-- If the first dot piece is shorter than the whole string, the string
decomposes as the piece, a dot, and the remainder after it. -/
theorem dotPart_split : ∀ s : List Nat, (dotPart s).length ≠ s.length →
    s = dotPart s ++ dotByte :: s.drop ((dotPart s).length + 1) := by
  intro s
  induction s with
  | nil => intro h; exact absurd rfl h
  | cons b t ih =>
    intro h
    by_cases hb : b = dotByte
    · subst hb
      have hdp : dotPart (dotByte :: t) = [] := by
        simp [dotPart, List.takeWhile_cons]
      rw [hdp]
      simp
    · have hdp : dotPart (b :: t) = b :: dotPart t := by
        simp [dotPart, List.takeWhile_cons, hb]
      rw [hdp] at h ⊢
      have ht : (dotPart t).length ≠ t.length := by
        simp only [List.length_cons] at h
        omega
      have := ih ht
      simp only [List.length_cons, List.cons_append, List.drop_succ_cons]
      exact congrArg (b :: ·) this

/-- On a non-empty string that does not end with a dot, the label string
iterator and `split('.')` run in lockstep. -/
theorem labelStrGo_eq_splitDotGo :
    ∀ (n : Nat) (s : List Nat), s.length ≤ n → s ≠ [] →
      s.getLast? ≠ some dotByte → labelStrGo n s = splitDotGo n s := by
  intro n
  induction n with
  | zero =>
    intro s hl hne _
    exact absurd (List.eq_nil_of_length_eq_zero (Nat.le_zero.mp hl)) hne
  | succ n ih =>
    intro s hl hne hlast
    have hse : s.isEmpty = false := by simp [hne]
    by_cases hp : (dotPart s).length = s.length
    · simp [labelStrGo, splitDotGo, hse, hp]
    · have hdec := dotPart_split s hp
      set rest := s.drop ((dotPart s).length + 1) with hrest
      have hrne : rest ≠ [] := by
        intro hr
        apply hlast
        rw [hdec, hr]
        rw [List.getLast?_append_cons]
        rfl
      have hlast2 : rest.getLast? = s.getLast? := by
        conv_rhs => rw [hdec]
        rw [show dotPart s ++ dotByte :: rest = (dotPart s ++ [dotByte]) ++ rest by simp]
        rw [List.getLast?_append_of_ne_nil _ hrne]
      have hrl : rest.length ≤ n := by
        have hlen := congrArg List.length hdec
        simp only [List.length_append, List.length_cons] at hlen
        omega
      have := ih rest hrl hrne (hlast2 ▸ hlast)
      simp only [labelStrGo, splitDotGo, hse, Bool.false_eq_true, if_false, hp,
        if_neg hp]
      rw [this]

/-- A built one-part label iterates exactly like its string. -/
theorem labelSegs_single_str (s : List Nat) :
    labelSegs ⟨[.str s]⟩ = labelStrSegs s := by
  simp [labelSegs, labelPartSegs]

/-! ## C9 -/

/-- C9 counterexample: `Label::new("")` (the empty string does not end
with a dot, so the constructor accepts it) yields a label whose iterator
is empty, while `"".split('.')` yields one empty segment. -/
theorem labelNew_empty_segments_differ :
    Label.new 4 [] = some ⟨[.str []]⟩ ∧
      labelSegs ⟨[.str []]⟩ ≠ splitDot [] := by
  constructor
  · rfl
  · decide

/-- C9 (amended): for every non-empty string `s` that does not end with a
dot, stored in a label with at least one part slot (`LLEN ≥ 1`), iterating
the segments of `Label::new(s)` yields exactly `s.split('.')`. -/
theorem labelNew_segments_eq_split (LLEN : Nat) (s : List Nat) (lab : Label)
    (hcap : 1 ≤ LLEN) (hne : s ≠ []) (hnew : Label.new LLEN s = some lab) :
    labelSegs lab = splitDot s := by
  unfold Label.new at hnew
  by_cases hdot : s.getLast? = some dotByte
  · simp [hdot] at hnew
  · rw [if_neg hdot] at hnew
    have hpush : (Label.pushBack LLEN ⟨[]⟩ s).1 = ⟨[.str s]⟩ := by
      unfold Label.pushBack vecPush
      simp [Nat.lt_of_lt_of_le Nat.zero_lt_one hcap]
    rw [hpush] at hnew
    have hlab : lab = ⟨[.str s]⟩ := by
      injection hnew with h
      exact h.symm
    subst hlab
    rw [labelSegs_single_str, labelStrSegs, splitDot]
    exact labelStrGo_eq_splitDotGo s.length s le_rfl hne hdot

/-- C9 witness: the amended theorem applied to the string `a.b`. -/
theorem labelNew_segments_eq_split_witness :
    labelSegs ⟨[.str [97, 46, 98]]⟩ = splitDot [97, 46, 98] :=
  labelNew_segments_eq_split 4 [97, 46, 98] ⟨[.str [97, 46, 98]]⟩
    (by decide) (by decide) (by decide)

/-! ## C4: `Server::new` initial state -/

theorem localIps_total (SLEN : Nat) : ∀ (svcs : List ServiceInfo) (acc : List LocalIp),
    svcs.length + acc.length ≤ SLEN → (localIpsFromServices SLEN svcs acc).isSome := by
  intro svcs
  induction svcs with
  | nil => intro acc _; simp [localIpsFromServices]
  | cons svc rest ih =>
    intro acc h
    simp only [List.length_cons] at h
    simp only [localIpsFromServices]
    cases hmem : acc.any (fun l => l == (⟨svc.ip_address, svc.netmask⟩ : LocalIp)) with
    | true => simpa [hmem] using ih acc (by omega)
    | false =>
      have hlt : acc.length < SLEN := by omega
      simp only [hmem, Bool.false_eq_true, if_false, vecPush, if_pos hlt]
      simpa using ih (acc ++ [⟨svc.ip_address, svc.netmask⟩]) (by simp; omega)

/-- C4 counterexample: for the empty service iterator, `Server::new` sets
both deadlines to `u64::MAX`, not to 3000 ms and 5000 ms. -/
theorem serverNew_empty_deadlines :
    Server.new 4 ([] : List ServiceInfo) = some serverEmpty ∧
      serverEmpty.next_advertise ≠ 3000 ∧ serverEmpty.next_query ≠ 5000 := by
  refine ⟨rfl, ?_, ?_⟩ <;> decide

/-- C4 (amended): for every service list that fits the `SLEN` capacity,
`Server::new` succeeds and initialises both round-robin indices to 0,
`txid_query` to 0 and `next_txid` to 1; `next_advertise`/`next_query` are
3000 ms/5000 ms when at least one service is given, and both `u64::MAX`
when the iterator is empty. -/
theorem serverNew_initialises (SLEN : Nat) (infos : List ServiceInfo)
    (h : infos.length ≤ SLEN) :
    ∃ s, Server.new SLEN infos = some s ∧
      s.next_advertise_idx = 0 ∧ s.next_query_idx = 0 ∧
      s.txid_query = 0 ∧ s.next_txid = 1 ∧
      (infos ≠ [] → s.next_advertise = 3000 ∧ s.next_query = 5000) ∧
      (infos = [] → s.next_advertise = u64Max ∧ s.next_query = u64Max) := by
  have htake : infos.take SLEN = infos := List.take_of_length_le h
  obtain ⟨ips, hips⟩ := Option.isSome_iff_exists.mp
    (localIps_total SLEN infos [] (by simpa using h))
  refine ⟨{ last_now := 0, services := infos, query_targets := [], local_ips := ips,
            next_advertise := if !infos.isEmpty then 3000 else u64Max,
            next_advertise_idx := 0,
            next_query := if !infos.isEmpty then 5000 else u64Max,
            next_query_idx := 0, txid_query := 0, next_txid := 1 },
          ?_, rfl, rfl, rfl, rfl, ?_, ?_⟩
  · simp [Server.new, htake, hips]
  · intro hne
    have he : infos.isEmpty = false := by simp [hne]
    simp [he]
  · intro hnil
    subst hnil
    simp

/-- C4 witness: the amended theorem at the one-service demo input. -/
theorem serverNew_initialises_witness :
    ∃ s, Server.new 1 [svcDemo] = some s ∧
      s.next_advertise_idx = 0 ∧ s.next_query_idx = 0 ∧
      s.txid_query = 0 ∧ s.next_txid = 1 ∧
      ([svcDemo] ≠ [] → s.next_advertise = 3000 ∧ s.next_query = 5000) ∧
      ([svcDemo] = [] → s.next_advertise = u64Max ∧ s.next_query = u64Max) :=
  serverNew_initialises 1 [svcDemo] (by decide)

/-! ## C5: self-echo suppression -/

/-- C5: a packet that parses as a `Request` whose id equals `txid_query`
(the id of the last query the server emitted) produces no packet: `handle`
returns `Timeout(poll_timeout())` and leaves the server unchanged. -/
theorem handle_suppresses_self_echo (QLEN ALEN LLEN SLEN LK : Nat) (s : Server)
    (data : List Nat) (src : SockAddr) (buffer rest : List Nat) (r : Request)
    (hp : Message.parse QLEN ALEN LLEN data = .ok rest (.request r))
    (hid : r.id = s.txid_query) :
    Server.handle QLEN ALEN LLEN SLEN LK s (.packet data src) buffer =
      some (s, .timeout s.pollTimeout) := by
  have hrr : s.requestResponse ALEN r src = none := by
    unfold Server.requestResponse
    cases hq : r.queries with
    | nil => rfl
    | cons q0 qs => simp [hid]
  simp only [Server.handle, Server.handlePacket, hp, Server.handleRequest, hrr]

/-- C5 witness: a fresh empty server (whose `txid_query` is 0) receiving a
twelve-zero-byte packet, which parses as a request with id 0. -/
theorem handle_suppresses_self_echo_witness :
    Server.handle 4 4 4 4 10 serverEmpty (.packet (List.replicate 12 0) srcDemo) [] =
      some (serverEmpty, .timeout serverEmpty.pollTimeout) :=
  handle_suppresses_self_echo 4 4 4 4 10 serverEmpty (List.replicate 12 0) srcDemo
    [] [] ⟨0, 0, []⟩ (by decide) rfl

/-! ## C6: the response echoes the request's question section -/

/-- C6: whenever the request handler builds a response, its question
section is the request's queries, verbatim and in order, and its id is the
request's id. -/
theorem requestResponse_echoes_queries (ALEN : Nat) (s : Server) (req : Request)
    (src : SockAddr) (resp : Response)
    (h : s.requestResponse ALEN req src = some resp) :
    resp.queries = req.queries ∧ resp.id = req.id := by
  unfold Server.requestResponse at h
  cases hq : req.queries with
  | nil => rw [hq] at h; exact absurd h (by simp)
  | cons q0 qs =>
    rw [hq] at h
    by_cases hid : (req.id == s.txid_query) = true
    · simp [hid] at h
    · simp only [hid, Bool.false_eq_true, if_false] at h
      split at h
      · exact absurd h (by simp)
      · have := Option.some.inj h
        subst this
        exact ⟨rfl, rfl⟩

/-- C6 witness: the theorem at the demo server and matching PTR request. -/
theorem requestResponse_echoes_queries_witness :
    respDemo.queries = reqDemo.queries ∧ respDemo.id = reqDemo.id :=
  requestResponse_echoes_queries 4 serverDemo reqDemo srcDemo respDemo (by decide)

/-! ## C7: the four answers of `as_answers` -/

/-- C7: `as_answers(aclass)` yields exactly four answers in the order PTR,
SRV, TXT, A-or-AAAA; the PTR answer names the service type with TTL 4500,
class always IN, and points at the instance name; SRV carries priority 0,
weight 0, the port and the host name at TTL 120; TXT carries the NUL text
at TTL 120; the address answer names the host at TTL 120, an AAAA always
carrying class IN while SRV, TXT and A carry the given `aclass`. -/
theorem asAnswers_fields (svc : ServiceInfo) (aclass : QClass) :
    (asAnswers svc aclass).length = 4 ∧
    (asAnswers svc aclass)[0]? =
      some ⟨svc.service_type, .ptr, .inq, 4500, .ptr svc.instance_name⟩ ∧
    (asAnswers svc aclass)[1]? =
      some ⟨svc.instance_name, .srv, aclass, 120, .srv 0 0 svc.port svc.hostname⟩ ∧
    (asAnswers svc aclass)[2]? =
      some ⟨svc.instance_name, .txt, aclass, 120, .txt [0]⟩ ∧
    (asAnswers svc aclass)[3]? = some (match svc.ip_address with
      | .v4 a4 => ⟨svc.hostname, .a, aclass, 120, .a a4⟩
      | .v6 a6 => ⟨svc.hostname, .aaaa, .inq, 120, .aaaa a6⟩) := by
  refine ⟨rfl, rfl, rfl, rfl, ?_⟩
  cases hip : svc.ip_address <;> simp [asAnswers, ipAnswer, hip]

/-! ## C3: serialisation into a too-small buffer -/

/-- C3: serialising a minimal request (12 header bytes) into a 3-byte
buffer panics: the id fits, but `Flags::serialize`'s `w[..2]` indexes a
one-byte remaining slice.  The overflow flag never even gets set — the
`Deref`-indexed header writes bypass the writer's checked `write`/`inc`
path, contradicting the documented sticky-overflow behaviour. -/
theorem serialize_small_buffer_panics :
    Message.serialize 10 (.request ⟨0, 0, []⟩) [0, 0, 0] = none := rfl

/-! ## C1: a well-formed message the codec cannot round-trip -/

/-- C1: serialising `msg6` (six queries, each name a stored suffix of the
next, all within QLEN = ALEN = LLEN = 8 and memo capacity 16) succeeds and
compresses the sixth name into a chain of five pointers; parsing the
resulting 59-byte packet then fails with a length/value error, because
`Label::do_parse`'s recursion counter admits at most four pointer hops.
`parse(serialize(M))` is an error, not `M`. -/
theorem serialize_msg6_not_parseable :
    Message.serialize 16 msg6 (List.replicate 256 0) =
      some (msg6Packet ++ List.replicate 197 0, 59) ∧
    Message.parse 8 8 8 msg6Packet = .err .lengthValue :=
  ⟨by decide, by decide⟩

/-! ## State-evolution lemmas for the server -/

theorem doAdvertise_state (ALEN LK : Nat) (s : Server) (buf : List Nat)
    (loc : LocalIp) (r : Server × Output)
    (h : Server.doAdvertise ALEN LK s buf loc = some r) : r.1 = s := by
  simp only [Server.doAdvertise] at h
  obtain ⟨w, _, hr⟩ := Option.map_eq_some'.mp h
  rw [← hr]

theorem doQuery_fields (QLEN LK : Nat) (s : Server) (buf : List Nat)
    (loc : LocalIp) (r : Server × Output)
    (h : Server.doQuery QLEN LK s buf loc = some r) :
    r.1.services = s.services ∧ r.1.local_ips = s.local_ips ∧
    r.1.query_targets = s.query_targets ∧ r.1.next_advertise = s.next_advertise ∧
    r.1.next_query = s.next_query ∧ r.1.last_now = s.last_now ∧
    r.1.next_advertise_idx = s.next_advertise_idx ∧
    r.1.next_query_idx = s.next_query_idx := by
  simp only [Server.doQuery] at h
  obtain ⟨w, _, hr⟩ := Option.map_eq_some'.mp h
  rw [← hr]
  exact ⟨rfl, rfl, rfl, rfl, rfl, rfl, rfl, rfl⟩

theorem handleTimeout_fields (QLEN ALEN LK : Nat) (s s2 : Server) (now : Nat)
    (buf : List Nat) (out : Output)
    (h : Server.handleTimeout QLEN ALEN LK s now buf = some (s2, out)) :
    s2.services = s.services ∧ s2.local_ips = s.local_ips ∧
    s2.query_targets = s.query_targets ∧ s2.last_now = now ∧
    (s2.next_advertise = s.next_advertise ∨
      s2.next_advertise = timeAdd now advertiseInterval) ∧
    (s2.next_query = s.next_query ∨ s2.next_query = timeAdd now queryInterval) ∧
    (s.services.isEmpty = true → s2.next_advertise = s.next_advertise) := by
  simp only [Server.handleTimeout] at h
  split at h
  next hadv =>
    have hne : s.services.isEmpty = false := by
      simp only [Bool.and_eq_true, Bool.not_eq_eq_eq_not, Bool.not_true] at hadv
      simpa using hadv.1
    split at h
    next => simp at h
    next send_from hidx =>
      obtain ⟨r, hda, hpair⟩ := Option.map_eq_some'.mp h
      have hr1 := doAdvertise_state ALEN LK _ buf send_from r hda
      split at hpair
      next hwrap =>
        injection hpair with h1 h2
        subst h1
        rw [hr1]
        refine ⟨rfl, rfl, rfl, rfl, Or.inr rfl, Or.inl rfl, fun he => ?_⟩
        rw [hne] at he
        cases he
      next hwrap =>
        injection hpair with h1 h2
        subst h1
        rw [hr1]
        exact ⟨rfl, rfl, rfl, rfl, Or.inl rfl, Or.inl rfl, fun _ => rfl⟩
  next hadv =>
    split at h
    next hq =>
      split at h
      next => simp at h
      next send_from hidx =>
        obtain ⟨r, hdq, hpair⟩ := Option.map_eq_some'.mp h
        obtain ⟨f1, f2, f3, f4, f5, f6, f7, f8⟩ :=
          doQuery_fields QLEN LK _ buf send_from r hdq
        split at hpair
        next hwrap =>
          injection hpair with h1 h2
          subst h1
          exact ⟨f1, f2, f3, f6, Or.inl f4, Or.inr rfl, fun _ => f4⟩
        next hwrap =>
          injection hpair with h1 h2
          subst h1
          exact ⟨f1, f2, f3, f6, Or.inl f4, Or.inl f5, fun _ => f4⟩
    next hq =>
      injection Option.some.inj h with h1 h2
      subst h1
      exact ⟨rfl, rfl, rfl, rfl, Or.inl rfl, Or.inl rfl, fun _ => rfl⟩

theorem handleRequest_state (ALEN LK : Nat) (s s2 : Server) (req : Request)
    (src : SockAddr) (buf : List Nat) (out : Output)
    (h : Server.handleRequest ALEN LK s req src buf = some (s2, out)) : s2 = s := by
  simp only [Server.handleRequest] at h
  split at h
  next =>
    injection Option.some.inj h with h1 h2
    exact h1.symm
  next response hrr =>
    obtain ⟨w, hw, hbind⟩ := Option.bind_eq_some.mp h
    split at hbind
    next => simp at hbind
    next sendFrom hfind =>
      injection Option.some.inj hbind with h1 h2
      exact h1.symm

theorem handleResponse_state (SLEN : Nat) (s : Server) (resp : Response) :
    (Server.handleResponse SLEN s resp).1 = s := by
  unfold Server.handleResponse
  cases hfd : (ServiceInfo.fromAnswers SLEN resp.answers []).filter fun sv =>
      isMatchingService sv s.services s.query_targets with
  | nil => simp [hfd]
  | cons sv rest => simp [hfd]

theorem handlePacket_state (QLEN ALEN LLEN SLEN LK : Nat) (s s2 : Server)
    (data : List Nat) (src : SockAddr) (buf : List Nat) (out : Output)
    (h : Server.handlePacket QLEN ALEN LLEN SLEN LK s data src buf = some (s2, out)) :
    s2 = s := by
  simp only [Server.handlePacket] at h
  cases hp : Message.parse QLEN ALEN LLEN data with
  | ok rest m =>
    rw [hp] at h
    cases m with
    | request r => exact handleRequest_state ALEN LK s s2 r src buf out h
    | response r =>
      have h1 := congrArg Prod.fst (Option.some.inj h)
      rw [← handleResponse_state SLEN s r]
      exact h1.symm
  | err k =>
    rw [hp] at h
    exact (congrArg Prod.fst (Option.some.inj h)).symm
  | panic => rw [hp] at h; exact absurd h (by simp)

/-! ## The server invariants along reachable states -/

theorem serverInv_new (SLEN : Nat) (infos : List ServiceInfo) (s : Server)
    (h : Server.new SLEN infos = some s) : serverInv s := by
  simp only [Server.new] at h
  obtain ⟨ips, _, hmk⟩ := Option.map_eq_some'.mp h
  rw [← hmk]
  refine ⟨by norm_num, ?_, ?_, ?_⟩
  · by_cases he : (infos.take SLEN).isEmpty <;> simp [he, u64Max]
  · by_cases he : (infos.take SLEN).isEmpty <;> simp [he, u64Max]
  · intro he
    have h0 : (infos.take SLEN).isEmpty = true := List.isEmpty_iff.mpr he
    simp [h0]

theorem serverInv_handle (QLEN ALEN LLEN SLEN LK : Nat) (s s2 : Server)
    (input : Input) (buf : List Nat) (out : Output) (hv : validInput input)
    (hinv : serverInv s)
    (h : Server.handle QLEN ALEN LLEN SLEN LK s input buf = some (s2, out)) :
    serverInv s2 := by
  obtain ⟨h1, h2, h3, h4⟩ := hinv
  cases input with
  | packet data src =>
    have := handlePacket_state QLEN ALEN LLEN SLEN LK s s2 data src buf out h
    subst this
    exact ⟨h1, h2, h3, h4⟩
  | timeout t =>
    obtain ⟨f1, f2, f3, f4, f5, f6, f7⟩ :=
      handleTimeout_fields QLEN ALEN LK s s2 t buf out h
    have ht : t < 2 ^ 64 := hv
    refine ⟨by rw [f4]; exact ht, ?_, ?_, ?_⟩
    · rcases f5 with f5 | f5
      · rw [f5]; exact h2
      · rw [f5]; exact Nat.mod_lt _ (by norm_num)
    · rcases f6 with f6 | f6
      · rw [f6]; exact h3
      · rw [f6]; exact Nat.mod_lt _ (by norm_num)
    · intro he
      have hse : s.services = [] := by rw [← f1]; exact he
      rw [f7 (by simp [hse]), h4 hse]

theorem serverInv_query (SLEN LLEN : Nat) (s s2 : Server) (st : List Nat)
    (ip mask : IpAddr) (hinv : serverInv s)
    (hq : Server.query SLEN LLEN s st ip mask = some s2) : serverInv s2 := by
  obtain ⟨h1, h2, h3, h4⟩ := hinv
  simp only [Server.query] at hq
  obtain ⟨lab, _, hmk⟩ := Option.map_eq_some'.mp hq
  rw [← hmk]
  exact ⟨h1, h2, h1, h4⟩

theorem reachable_serverInv (QLEN ALEN LLEN SLEN LK : Nat) (s : Server)
    (h : Reachable QLEN ALEN LLEN SLEN LK s) : serverInv s := by
  induction h with
  | base infos s hnew => exact serverInv_new SLEN infos s hnew
  | step s s2 input buf out _ hv hh ih =>
    exact serverInv_handle QLEN ALEN LLEN SLEN LK s s2 input buf out hv ih hh
  | queryStep s s2 st ip mask _ hq ih =>
    exact serverInv_query SLEN LLEN s s2 st ip mask ih hq

/-! ## C8: `poll_timeout` is the minimum of the two deadlines -/

/-- C8: in every server state reachable from `Server::new` by `handle` and
`query` calls, `poll_timeout()` equals `min(next_advertise, next_query)`.
With services this is the very definition; without services the stored
`next_advertise` is pinned at `u64::MAX`, so the `next_query` the code
returns is that minimum. -/
theorem pollTimeout_eq_min (QLEN ALEN LLEN SLEN LK : Nat) (s : Server)
    (h : Reachable QLEN ALEN LLEN SLEN LK s) :
    s.pollTimeout = min s.next_advertise s.next_query := by
  obtain ⟨_, _, h3, h4⟩ := reachable_serverInv QLEN ALEN LLEN SLEN LK s h
  unfold Server.pollTimeout
  by_cases he : s.services.isEmpty = true
  · rw [if_pos he, h4 (List.isEmpty_iff.mp he)]
    have hle : s.next_query ≤ u64Max := by
      unfold u64Max
      omega
    exact (Nat.min_eq_right hle).symm
  · rw [if_neg he]

/-- C8 witness: the theorem at the freshly constructed empty server. -/
theorem pollTimeout_eq_min_witness :
    serverEmpty.pollTimeout = min serverEmpty.next_advertise serverEmpty.next_query :=
  pollTimeout_eq_min 4 4 4 4 10 serverEmpty (Reachable.base [] serverEmpty rfl)

/-! ## C10: the send-from lookup after building answers cannot fail -/

theorem localIps_mono (SLEN : Nat) : ∀ (svcs : List ServiceInfo)
    (acc out : List LocalIp), localIpsFromServices SLEN svcs acc = some out →
    ∀ l ∈ acc, l ∈ out := by
  intro svcs
  induction svcs with
  | nil =>
    intro acc out h l hl
    simp only [localIpsFromServices] at h
    rw [← Option.some.inj h]
    exact hl
  | cons svc rest ih =>
    intro acc out h l hl
    simp only [localIpsFromServices] at h
    split at h
    · exact ih acc out h l hl
    · split at h
      next acc2 hpush =>
        simp only [vecPush] at hpush
        split at hpush
        · have hacc2 := Option.some.inj hpush
          exact ih acc2 out h l (by rw [← hacc2]; exact List.mem_append_left _ hl)
        · cases hpush
      next => cases h

theorem localIps_covers (SLEN : Nat) : ∀ (svcs : List ServiceInfo)
    (acc out : List LocalIp), localIpsFromServices SLEN svcs acc = some out →
    ∀ svc ∈ svcs, ∃ l ∈ out, l.addr = svc.ip_address ∧ l.mask = svc.netmask := by
  intro svcs
  induction svcs with
  | nil => intro acc out _ svc hm; cases hm
  | cons svc0 rest ih =>
    intro acc out h svc hm
    simp only [localIpsFromServices] at h
    rcases List.mem_cons.mp hm with rfl | hm2
    · split at h
      next hany =>
        obtain ⟨l, hl, hleq⟩ := List.any_eq_true.mp hany
        have : l = ⟨svc.ip_address, svc.netmask⟩ := by
          exact eq_of_beq hleq
        exact ⟨l, localIps_mono SLEN rest acc out h l hl, by rw [this], by rw [this]⟩
      next hany =>
        split at h
        next acc2 hpush =>
          simp only [vecPush] at hpush
          split at hpush
          · have hacc2 := Option.some.inj hpush
            refine ⟨⟨svc.ip_address, svc.netmask⟩,
              localIps_mono SLEN rest acc2 out h _ ?_, rfl, rfl⟩
            rw [← hacc2]
            exact List.mem_append_right _ (List.mem_singleton.mpr rfl)
          · cases hpush
        next => cases h
    · split at h
      · exact ih acc out h svc hm2
      · split at h
        next acc2 hpush => exact ih acc2 out h svc hm2
        next => cases h

theorem svcIpsInv_new (SLEN : Nat) (infos : List ServiceInfo) (s : Server)
    (h : Server.new SLEN infos = some s) : svcIpsInv s := by
  simp only [Server.new] at h
  obtain ⟨ips, hips, hmk⟩ := Option.map_eq_some'.mp h
  rw [← hmk]
  intro svc hm
  exact localIps_covers SLEN (infos.take SLEN) [] ips hips svc hm

theorem query_fields (SLEN LLEN : Nat) (s s2 : Server) (st : List Nat)
    (ip mask : IpAddr) (hq : Server.query SLEN LLEN s st ip mask = some s2) :
    s2.services = s.services ∧ ∀ l ∈ s.local_ips, l ∈ s2.local_ips := by
  simp only [Server.query] at hq
  obtain ⟨lab, _, hmk⟩ := Option.map_eq_some'.mp hq
  rw [← hmk]
  refine ⟨rfl, fun l hl => ?_⟩
  simp only
  split
  · exact hl
  · split
    next v hpush =>
      simp only [vecPush] at hpush
      split at hpush
      · rw [← Option.some.inj hpush]
        exact List.mem_append_left _ hl
      · cases hpush
    next => exact hl

theorem reachable_svcIpsInv (QLEN ALEN LLEN SLEN LK : Nat) (s : Server)
    (h : Reachable QLEN ALEN LLEN SLEN LK s) : svcIpsInv s := by
  induction h with
  | base infos s hnew => exact svcIpsInv_new SLEN infos s hnew
  | step s s2 input buf out _ hv hh ih =>
    cases input with
    | packet data src =>
      have := handlePacket_state QLEN ALEN LLEN SLEN LK s s2 data src buf out hh
      subst this
      exact ih
    | timeout t =>
      obtain ⟨f1, f2, _, _, _, _, _⟩ := handleTimeout_fields QLEN ALEN LK s s2 t buf out hh
      intro svc hm
      rw [f1] at hm
      obtain ⟨l, hl, ha, hmk2⟩ := ih svc hm
      exact ⟨l, by rw [f2]; exact hl, ha, hmk2⟩
  | queryStep s s2 st ip mask _ hq ih =>
    obtain ⟨f1, f2⟩ := query_fields SLEN LLEN s s2 st ip mask hq
    intro svc hm
    rw [f1] at hm
    obtain ⟨l, hl, ha, hmk2⟩ := ih svc hm
    exact ⟨l, f2 l hl, ha, hmk2⟩

/-- C10: in every reachable server state, whenever the request handler has
built a (necessarily non-empty) answer list for an incoming request, some
entry of `local_ips` is on the requester's subnet, so the `unwrap` behind
the send-from lookup cannot panic: the answers came from a stored service
that matched `is_same_network` with the requester, and that service's
`(ip, netmask)` pair was recorded in `local_ips` at construction and never
removed. -/
theorem requestResponse_sendFrom_exists (QLEN ALEN LLEN SLEN LK : Nat)
    (s : Server) (req : Request) (src : SockAddr) (resp : Response)
    (hreach : Reachable QLEN ALEN LLEN SLEN LK s)
    (hresp : s.requestResponse ALEN req src = some resp) :
    (s.local_ips.find? fun l => isSameNetwork l.addr l.mask src.ip).isSome = true := by
  have hinv := reachable_svcIpsInv QLEN ALEN LLEN SLEN LK s hreach
  obtain ⟨svc, hsvc, hnet⟩ :
      ∃ svc ∈ s.services, isSameNetwork svc.ip_address svc.netmask src.ip = true := by
    by_contra hc
    push_neg at hc
    have hnone : s.requestResponse ALEN req src = none := by
      unfold Server.requestResponse
      cases hq : req.queries with
      | nil => rfl
      | cons q0 qs =>
        by_cases hid : (req.id == s.txid_query) = true
        · simp [hid]
        · have hflat : ∀ q ∈ q0 :: qs, (s.services.flatMap fun svc =>
              if q.qtype == QType.ptr && labelEq q.name svc.service_type &&
                  isSameNetwork svc.ip_address svc.netmask src.ip then
                asAnswers svc q0.qclass
              else []) = [] := by
            intro q _
            apply List.flatMap_eq_nil_iff.mpr
            intro svc hsvc
            have hne := hc svc hsvc
            have hfalse : isSameNetwork svc.ip_address svc.netmask src.ip = false := by
              revert hne
              cases isSameNetwork svc.ip_address svc.netmask src.ip <;> simp
            simp [hfalse]
          have houter := List.flatMap_eq_nil_iff.mpr hflat
          simp only [hid, Bool.false_eq_true, if_false]
          rw [houter]
          simp
    rw [hnone] at hresp
    cases hresp
  obtain ⟨l, hl, ha, hmk⟩ := hinv svc hsvc
  apply List.find?_isSome.mpr
  exact ⟨l, hl, by rw [ha, hmk]; exact hnet⟩

/-- C10 witness: the theorem at the demo server (reachable as
`Server::new`'s output) and the matching PTR request. -/
theorem requestResponse_sendFrom_exists_witness :
    (serverDemo.local_ips.find? fun l =>
      isSameNetwork l.addr l.mask srcDemo.ip).isSome = true :=
  requestResponse_sendFrom_exists 4 4 4 1 10 serverDemo reqDemo srcDemo respDemo
    (Reachable.base [svcDemo] serverDemo rfl) (by decide)

/-! ## C2: the parser terminates and never panics

The two modelled panic sites of `Label::do_parse` are the run slice
`&all[..run_end]` and the comparison `input[..2]`.  The loop invariant —
`input` is the suffix of `all` after `run_end` consumed bytes — rules both
out. -/

theorem pushStep_no_panic (LLEN : Nat) (ctx : List Nat) (b : Bool)
    (all : List Nat) (re2 : Nat) (items : List LabelPart)
    (hle : re2 ≤ all.length) : pushStep LLEN ctx b all re2 items ≠ PR.panic := by
  unfold pushStep
  split
  · split <;> simp
  · simp

theorem doParseGo_no_panic (LLEN : Nat) (ctx : List Nat) (limit : Nat)
    (recurse : List Nat → List LabelPart → PR (List LabelPart))
    (hrec : limit ≠ 0 → ∀ p i, recurse p i ≠ PR.panic) :
    ∀ (fuel : Nat) (all input : List Nat) (runEnd : Nat) (items : List LabelPart),
      input.length ≤ fuel → input = all.drop runEnd → runEnd ≤ all.length →
      doParseGo LLEN ctx limit recurse fuel all input runEnd items ≠ PR.panic := by
  intro fuel
  induction fuel with
  | zero =>
    intro all input runEnd items hf _ _
    have hnil : input = [] := List.eq_nil_of_length_eq_zero (Nat.le_zero.mp hf)
    subst hnil
    simp [doParseGo]
  | succ fuel ih =>
    intro all input runEnd items hf hinv hre
    cases input with
    | nil => simp [doParseGo]
    | cons len newInput =>
      have hlen_all : all.length = runEnd + newInput.length + 1 := by
        have h1 := congrArg List.length hinv
        simp only [List.length_cons, List.length_drop] at h1
        omega
      have hre2 : (if ((len &&& 0xc0) != 0) = true then runEnd else runEnd + 1)
          ≤ all.length := by
        split <;> omega
      intro hpan
      simp only [doParseGo] at hpan
      split at hpan
      next heq => cases hpan
      next heq => exact pushStep_no_panic LLEN ctx _ all _ items hre2 heq
      next a items2 heq =>
        split at hpan
        · cases hpan
        · split at hpan
          next hptr =>
            split at hpan
            · cases hpan
            next b rest2 =>
              split at hpan
              · split at hpan
                · cases hpan
                · split at hpan
                  next hlt => simp only [List.length_cons] at hlt; omega
                  next hlt =>
                    split at hpan
                    · cases hpan
                    · split at hpan
                      · cases hpan
                      next hlim =>
                        split at hpan
                        · cases hpan
                        · cases hpan
                        next hr => exact hrec hlim _ _ hr
              · cases hpan
          next hptr =>
            split at hpan
            next hlen =>
              split at hpan
              next hutf =>
                have hix : runEnd + 1 + len = runEnd + (len + 1) := by omega
                have h2 : newInput.drop len = all.drop (runEnd + 1 + len) := by
                  rw [hix]
                  calc newInput.drop len = (len :: newInput).drop (len + 1) := by
                        simp [List.drop_succ_cons]
                    _ = (all.drop runEnd).drop (len + 1) := by rw [← hinv]
                    _ = all.drop (runEnd + (len + 1)) := List.drop_drop _ _ _
                have h3 : runEnd + 1 + len ≤ all.length := by omega
                refine ih all (newInput.drop len) _ items2 ?_ h2 h3 hpan
                simp only [List.length_drop]
                simp only [List.length_cons] at hf
                omega
              next => cases hpan
            next => cases hpan

theorem doParse_no_panic (LLEN : Nat) (ctx : List Nat) :
    ∀ (limit : Nat) (input : List Nat) (items : List LabelPart),
      doParse LLEN ctx limit input items ≠ PR.panic := by
  intro limit
  induction limit with
  | zero =>
    intro input items
    exact doParseGo_no_panic LLEN ctx 0 _ (fun h => absurd rfl h)
      input.length input input 0 items le_rfl (List.drop_zero input).symm
      (Nat.zero_le _)
  | succ l ih =>
    intro input items
    exact doParseGo_no_panic LLEN ctx (l + 1) _ (fun _ p i => ih p i)
      input.length input input 0 items le_rfl (List.drop_zero input).symm
      (Nat.zero_le _)

theorem labelParse_no_panic (LLEN : Nat) (input context : List Nat)
    (hctx : context ≠ []) : Label.parse LLEN input context ≠ PR.panic := by
  unfold Label.parse
  have : context.isEmpty = false := by
    cases context
    · exact absurd rfl hctx
    · rfl
  rw [this]
  simp only [Bool.false_eq_true, if_false]
  split
  · simp
  · simp
  · next hpn => exact absurd hpn (doParse_no_panic LLEN context 4 input [])

theorem PR.bind_no_panic {α β : Type} {x : PR α} {f : List Nat → α → PR β}
    (hx : x ≠ PR.panic) (hf : ∀ r v, x = PR.ok r v → f r v ≠ PR.panic) :
    PR.bind x f ≠ PR.panic := by
  cases x with
  | ok r v => exact hf r v rfl
  | err k => simp [PR.bind]
  | panic => exact absurd rfl hx

theorem beU8_no_panic (input : List Nat) : beU8 input ≠ PR.panic := by
  cases input <;> simp [beU8]

theorem beU16_no_panic (input : List Nat) : beU16 input ≠ PR.panic := by
  match input with
  | [] => simp [beU16]
  | [a] => simp [beU16]
  | a :: b :: rest => simp [beU16]

theorem beU32_no_panic (input : List Nat) : beU32 input ≠ PR.panic := by
  match input with
  | [] => simp [beU32]
  | [a] => simp [beU32]
  | [a, b] => simp [beU32]
  | [a, b, c] => simp [beU32]
  | a :: b :: c :: d :: rest => simp [beU32]

theorem takeBytes_no_panic (n : Nat) (input : List Nat) :
    takeBytes n input ≠ PR.panic := by
  unfold takeBytes
  split <;> simp

theorem beU16_ok_ne_nil {input r : List Nat} {v : Nat}
    (h : beU16 input = PR.ok r v) : input ≠ [] := by
  intro hn
  subst hn
  simp [beU16] at h

theorem parseA_no_panic (input : List Nat) : parseA input ≠ PR.panic := by
  unfold parseA
  apply PR.bind_no_panic (beU16_no_panic input)
  intro r v _
  apply PR.bind_no_panic (takeBytes_no_panic v r)
  intro r2 v2 _
  split <;> simp

theorem parseAAAA_no_panic (input : List Nat) : parseAAAA input ≠ PR.panic := by
  unfold parseAAAA
  apply PR.bind_no_panic (beU16_no_panic input)
  intro r v _
  apply PR.bind_no_panic (takeBytes_no_panic v r)
  intro r2 v2 _
  split <;> simp

theorem parseTXT_no_panic (input : List Nat) : parseTXT input ≠ PR.panic := by
  unfold parseTXT
  apply PR.bind_no_panic (beU16_no_panic input)
  intro r v _
  apply PR.bind_no_panic (takeBytes_no_panic v r)
  intro r2 v2 _
  split <;> simp

theorem parsePTR_no_panic (LLEN : Nat) (input context : List Nat)
    (hctx : context ≠ []) : parsePTR LLEN input context ≠ PR.panic := by
  unfold parsePTR
  apply PR.bind_no_panic (beU16_no_panic input)
  intro r v _
  apply PR.bind_no_panic (labelParse_no_panic LLEN r context hctx)
  intro r2 v2 _
  simp

theorem parseSRV_no_panic (LLEN : Nat) (input context : List Nat)
    (hctx : context ≠ []) : parseSRV LLEN input context ≠ PR.panic := by
  unfold parseSRV
  apply PR.bind_no_panic (beU16_no_panic input)
  intro r1 v1 _
  apply PR.bind_no_panic (beU16_no_panic r1)
  intro r2 v2 _
  apply PR.bind_no_panic (beU16_no_panic r2)
  intro r3 v3 _
  apply PR.bind_no_panic (beU16_no_panic r3)
  intro r4 v4 _
  apply PR.bind_no_panic (labelParse_no_panic LLEN r4 context hctx)
  intro r5 v5 _
  simp

theorem Record_parse_no_panic (LLEN : Nat) (input context : List Nat)
    (hctx : context ≠ []) (t : QType) :
    Record.parse LLEN input context t ≠ PR.panic := by
  cases t with
  | a => exact parseA_no_panic input
  | aaaa => exact parseAAAA_no_panic input
  | ptr => exact parsePTR_no_panic LLEN input context hctx
  | txt => exact parseTXT_no_panic input
  | srv => exact parseSRV_no_panic LLEN input context hctx
  | any => simp [Record.parse]
  | unknown v => simp [Record.parse]

theorem Query_parse_no_panic (LLEN : Nat) (input context : List Nat)
    (hctx : context ≠ []) : Query.parse LLEN input context ≠ PR.panic := by
  unfold Query.parse
  apply PR.bind_no_panic (labelParse_no_panic LLEN input context hctx)
  intro r1 v1 _
  apply PR.bind_no_panic (beU16_no_panic r1)
  intro r2 v2 _
  apply PR.bind_no_panic (beU16_no_panic r2)
  intro r3 v3 _
  simp

theorem Answer_parse_no_panic (LLEN : Nat) (input context : List Nat)
    (hctx : context ≠ []) : Answer.parse LLEN input context ≠ PR.panic := by
  unfold Answer.parse
  apply PR.bind_no_panic (labelParse_no_panic LLEN input context hctx)
  intro r1 v1 _
  apply PR.bind_no_panic (beU16_no_panic r1)
  intro r2 v2 _
  apply PR.bind_no_panic (beU16_no_panic r2)
  intro r3 v3 _
  apply PR.bind_no_panic (beU32_no_panic r3)
  intro r4 v4 _
  apply PR.bind_no_panic (Record_parse_no_panic LLEN r4 context hctx (QType.fromU16 v2))
  intro r5 v5 _
  simp

theorem parseQueries_no_panic (QLEN LLEN : Nat) (context : List Nat)
    (hctx : context ≠ []) :
    ∀ (n : Nat) (input : List Nat) (acc : List Query),
      parseQueries QLEN LLEN context n input acc ≠ PR.panic := by
  intro n
  induction n with
  | zero =>
    intro input acc
    simp [parseQueries]
  | succ n ih =>
    intro input acc
    unfold parseQueries
    apply PR.bind_no_panic (Query_parse_no_panic LLEN input context hctx)
    intro r q _
    split
    · exact ih r _
    · simp

theorem parseAnswers_no_panic (ALEN LLEN : Nat) (context : List Nat)
    (hctx : context ≠ []) :
    ∀ (n : Nat) (input : List Nat) (acc : List Answer),
      parseAnswers ALEN LLEN context n input acc ≠ PR.panic := by
  intro n
  induction n with
  | zero =>
    intro input acc
    simp [parseAnswers]
  | succ n ih =>
    intro input acc
    unfold parseAnswers
    apply PR.bind_no_panic (Answer_parse_no_panic LLEN input context hctx)
    intro r an _
    split
    · exact ih r _
    · simp

theorem Request_parse_no_panic (QLEN LLEN : Nat) (input : List Nat) :
    Request.parse QLEN LLEN input ≠ PR.panic := by
  unfold Request.parse
  apply PR.bind_no_panic (beU16_no_panic input)
  intro r1 v1 h1
  have hctx : input ≠ [] := beU16_ok_ne_nil h1
  apply PR.bind_no_panic (beU16_no_panic r1)
  intro r2 v2 _
  apply PR.bind_no_panic (beU16_no_panic r2)
  intro r3 v3 _
  apply PR.bind_no_panic (beU16_no_panic r3)
  intro r4 v4 _
  apply PR.bind_no_panic (beU16_no_panic r4)
  intro r5 v5 _
  apply PR.bind_no_panic (beU16_no_panic r5)
  intro r6 v6 _
  apply PR.bind_no_panic (parseQueries_no_panic QLEN LLEN input hctx v3 r6 [])
  intro r7 v7 _
  simp

theorem Response_parse_no_panic (QLEN ALEN LLEN : Nat) (input : List Nat) :
    Response.parse QLEN ALEN LLEN input ≠ PR.panic := by
  unfold Response.parse
  apply PR.bind_no_panic (beU16_no_panic input)
  intro r1 v1 h1
  have hctx : input ≠ [] := beU16_ok_ne_nil h1
  apply PR.bind_no_panic (beU16_no_panic r1)
  intro r2 v2 _
  apply PR.bind_no_panic (beU16_no_panic r2)
  intro r3 v3 _
  apply PR.bind_no_panic (beU16_no_panic r3)
  intro r4 v4 _
  apply PR.bind_no_panic (beU16_no_panic r4)
  intro r5 v5 _
  apply PR.bind_no_panic (beU16_no_panic r5)
  intro r6 v6 _
  apply PR.bind_no_panic (parseQueries_no_panic QLEN LLEN input hctx v3 r6 [])
  intro r7 v7 _
  apply PR.bind_no_panic (parseAnswers_no_panic ALEN LLEN input hctx v4 r7 [])
  intro r8 v8 _
  simp

theorem Message_parse_no_panic (QLEN ALEN LLEN : Nat) (input : List Nat) :
    Message.parse QLEN ALEN LLEN input ≠ PR.panic := by
  unfold Message.parse
  split
  · simp
  · apply PR.bind_no_panic (beU16_no_panic (input.drop 2))
    intro r1 v1 _
    split
    · apply PR.bind_no_panic (Request_parse_no_panic QLEN LLEN input)
      intro r2 v2 _
      simp
    · apply PR.bind_no_panic (Response_parse_no_panic QLEN ALEN LLEN input)
      intro r2 v2 _
      simp

/-- C2: for every byte array `B` of length at most 2048, `Message::parse`
is a total function (the Lean model terminates by construction, with the
compression-pointer recursion bounded by the counter of initial value 4)
that never reaches a panic site: it returns either a parsed message with
the remaining input or a parse error. -/
theorem parse_terminates_no_panic (QLEN ALEN LLEN : Nat) (B : List Nat)
    (hlen : B.length ≤ 2048) :
    (∃ rest m, Message.parse QLEN ALEN LLEN B = PR.ok rest m) ∨
    (∃ k, Message.parse QLEN ALEN LLEN B = PR.err k) := by
  cases hp : Message.parse QLEN ALEN LLEN B with
  | ok rest m => exact Or.inl ⟨rest, m, rfl⟩
  | err k => exact Or.inr ⟨k, rfl⟩
  | panic => exact absurd hp (Message_parse_no_panic QLEN ALEN LLEN B)

theorem parse_terminates_no_panic_witness :
    (List.length ([] : List Nat) ≤ 2048) ∧
    ((∃ rest m, Message.parse 8 8 8 [] = PR.ok rest m) ∨
     (∃ k, Message.parse 8 8 8 [] = PR.err k)) :=
  ⟨by decide, parse_terminates_no_panic 8 8 8 [] (by decide)⟩

end Opslag
